import Mathlib

/-!
# EOTS manager: key and randomness custody

A shallow embedding of `eotsmanager/local/localmanager.go` (the local EOTS
manager) and of `eotsmanager/client/rpcclient.go` (the gRPC client: its
constructor and its operations), together with the properties of the randomness
batch, of signing, of validator creation and of the client that follow from the
code.

Conventions of the embedding.

* A byte string (`[]byte`) is a `List Nat` whose elements are byte values.
* `uint64` and `uint32` values are naturals; `uint64` addition is written with
  an explicit `% 2 ^ 64`.
* A Go function returning `(T, error)` and mutating a store is a function
  returning `Except Err T × store`: the store component is the store as the
  call leaves it, also when the call fails.
* Everything the code obtains from outside the process (the clock, the
  generator stream, storage faults, the keyring derivation, the network) is
  read from a `World` value passed to the call.
-/

namespace EOTS

/-! ## Byte strings and errors -/

/-- A Go byte slice. -/
abbrev Bytes := List Nat

/-- Big-endian encoding of the low `8 * len` bits of `v` on `len` bytes. -/
def beBytes : Nat → Nat → Bytes
  | 0, _ => []
  | len + 1, v => beBytes len (v / 256) ++ [v % 256]

/-- Big-endian decoding of a byte string. -/
def beNat (bs : Bytes) : Nat :=
  bs.foldl (fun acc b => acc * 256 + b) 0

/-- Addition of two `uint64` values (`startHeight + uint64(i)`): it wraps
around at `2 ^ 64`. -/
def addUint64 (a b : Nat) : Nat := (a + b) % 2 ^ 64

/-- The value of `sdktypes.Uint64ToBigEndian`: eight big-endian bytes. -/
def Uint64ToBigEndian (h : Nat) : Bytes := beBytes 8 h

/-- Go errors. `errorf` is a `fmt.Errorf` without `%w`, `wrapf` one with `%w`;
`fault` is a failure reported by a collaborator outside the process. -/
inductive Err where
  | ErrValidatorAlreadyExisted
  | ErrSchnorrRandomnessALreadyCreated
  | notFound
  | fault (tag : String)
  | errorf (msg : String)
  | wrapf (msg : String) (inner : Err)
  deriving DecidableEq, Repr

/-- The error at the bottom of a chain of `%w` wrappings (`errors.Unwrap`
iterated). -/
def Err.root : Err → Err
  | .wrapf _ inner => inner.root
  | e => e

/-! ## Constants -/

/-- The value of `types.SchnorrRandomnessLength`. -/
def SchnorrRandomnessLength : Nat := 32

/-- The order of the secp256k1 group. -/
def secp256k1N : Nat :=
  0xFFFFFFFFFFFFFFFFFFFFFFFFFFFFFFFEBAAEDCE6AF48A03BBFD25E8CD0364141

/-! ## Randomness store -/

/-- The type `types.SchnorrRandPair`. -/
structure SchnorrRandPair where
  PubRand : Bytes
  SecRand : Bytes
  deriving DecidableEq, Repr

/-- Modelled from the spec: `types.NewSchnorrRandPair` is not among the source
files; a randomness pair is a 32-byte secret and a 32-byte public part, and a
part of another length is an invalid argument. -/
def NewSchnorrRandPair (privRand pubRand : Bytes) : Except Err SchnorrRandPair :=
  if privRand.length ≠ SchnorrRandomnessLength then
    .error (.errorf "a private randomness should be 32 bytes")
  else if pubRand.length ≠ SchnorrRandomnessLength then
    .error (.errorf "a public randomness should be 32 bytes")
  else .ok { PubRand := pubRand, SecRand := privRand }

/-- Modelled from the spec: the store key of a fingerprint, the concatenation
`pk ‖ chain ‖ be64(height)` (the fixed tag is the choice of map). -/
def getRandPairKey (pk chainID : Bytes) (height : Nat) : Bytes :=
  pk ++ chainID ++ Uint64ToBigEndian height

/-- A key-value map as an association list without duplicate keys in use:
`kvPut` replaces the entry of a key. -/
def kvGet {κ β : Type} [DecidableEq κ] (k : κ) : List (κ × β) → Option β
  | [] => none
  | (k', v) :: rest => if k' = k then some v else kvGet k rest

/-- Insert or replace the entry of `k`. -/
def kvPut {κ β : Type} [DecidableEq κ] (k : κ) (v : β) : List (κ × β) → List (κ × β)
  | [] => [(k, v)]
  | (k', v') :: rest => if k' = k then (k, v) :: rest else (k', v') :: kvPut k v rest

/-- Modelled from the spec: the type `EOTSStore` is not among the source files;
it holds the durable map `fingerprint → RandomnessPair` and the index
`pk → name`. -/
structure EOTSStore where
  rand : List (Bytes × SchnorrRandPair)
  keys : List (Bytes × String)
  deriving DecidableEq, Repr

/-! ## Keyring records -/

/-- The public key of a keyring record, by its concrete type. -/
inductive PubKeyAny where
  | secp256k1 (Key : Bytes)
  | other (typeName : String)
  deriving DecidableEq, Repr

/-- The cached private key of a local keyring record, by its concrete type. -/
inductive PrivKeyAny where
  | secp256k1 (Key : Bytes)
  | other (typeName : String)
  deriving DecidableEq, Repr

/-- A keyring record: `GetPubKey` is the outcome of `record.GetPubKey()`,
`PrivKey` the value of `GetLocal().PrivKey.GetCachedValue()`. -/
structure Record where
  Name : String
  GetPubKey : Except Err PubKeyAny
  PrivKey : PrivKeyAny

/-- The keyring `keyring.Keyring`: the records by name. -/
abbrev Keyring := List (String × Record)

/-- What a call obtains from outside the source files: the environment of the
process and the library functions the code calls.

* `unixNano`: the reading of `time.Now().UnixNano()`;
* `randGen seed i`: the result of the `i`-th call of `eots.RandGen` on a
  `math/rand` generator seeded with `seed` (secret scalar, public field value);
* `existsFault`, `getFault`, `putFault`: the storage failure, if any, of an
  existence query, a read or a write at a key of the randomness map;
* `nameGetFault`, `namePutFault`: the same for the `pk → name` index;
* `algoFault`: the failure, if any, of `keyring.NewSigningAlgoFromString`;
* `NewEntropy`, `NewMnemonic`: the outcomes of the `bip39` calls;
* `newAccount name mnemonic passPhrase`: the record `kr.NewAccount` derives, or
  its failure;
* `ParsePubKey`: `btcec.ParsePubKey`, the affine point of a serialized key;
* `scalarBaseMultX k`: the x-coordinate of `k·G`;
* `taggedHash`: the BIP-340 challenge hash, as a number. -/
structure World where
  unixNano : Int
  randGen : Int → Nat → Except Err (Nat × Nat)
  existsFault : Bytes → Option Err
  getFault : Bytes → Option Err
  putFault : Bytes → Option Err
  nameGetFault : Bytes → Option Err
  namePutFault : Bytes → Option Err
  algoFault : Option Err
  NewEntropy : Except Err Bytes
  NewMnemonic : Bytes → Except Err String
  newAccount : String → String → String → Except Err Record
  ParsePubKey : Bytes → Except Err (Nat × Nat)
  scalarBaseMultX : Nat → Nat
  taggedHash : Bytes → Nat

/-- Modelled from the spec: `EOTSStore.randPairExists`, the operation
`exists(pk, chain, height) → bool` of the randomness store. -/
def randPairExists (w : World) (es : EOTSStore) (pk chainID : Bytes) (height : Nat) :
    Except Err Bool :=
  match w.existsFault (getRandPairKey pk chainID height) with
  | some e => .error e
  | none => .ok (kvGet (getRandPairKey pk chainID height) es.rand).isSome

/-- Modelled from the spec: `EOTSStore.saveRandPair`, a write of one entry of
the randomness store; a failed write leaves the store as it was. -/
def saveRandPair (w : World) (es : EOTSStore) (pk chainID : Bytes) (height : Nat)
    (randPair : SchnorrRandPair) : Except Err Unit × EOTSStore :=
  match w.putFault (getRandPairKey pk chainID height) with
  | some e => (.error e, es)
  | none => (.ok (), { es with rand := kvPut (getRandPairKey pk chainID height) randPair es.rand })

/-- Modelled from the spec: `EOTSStore.getRandPair`, the operation
`get(pk, chain, height) → RandomnessPair` that fails with `NotFound`. -/
def getRandPair (w : World) (es : EOTSStore) (pk chainID : Bytes) (height : Nat) :
    Except Err SchnorrRandPair :=
  match w.getFault (getRandPairKey pk chainID height) with
  | some e => .error e
  | none =>
    match kvGet (getRandPairKey pk chainID height) es.rand with
    | none => .error .notFound
    | some rp => .ok rp

/-- Modelled from the spec: `EOTSStore.saveValidatorKey`, the write of the reverse
mapping `pk → name`; a failed write leaves the index as it was. -/
def saveValidatorKey (w : World) (es : EOTSStore) (pk : Bytes) (keyName : String) :
    Except Err Unit × EOTSStore :=
  match w.namePutFault pk with
  | some e => (.error e, es)
  | none => (.ok (), { es with keys := kvPut pk keyName es.keys })

/-- Modelled from the spec: `EOTSStore.getValidatorKeyName`, the reverse lookup
`name_for(pk) → name`. -/
def getValidatorKeyName (w : World) (es : EOTSStore) (pk : Bytes) : Except Err String :=
  match w.nameGetFault pk with
  | some e => .error e
  | none =>
    match kvGet pk es.keys with
    | none => .error .notFound
    | some name => .ok name

/-! ## Randomness batches -/

/-- The existence loop of `CreateRandomnessPairListWithExistenceCheck`
(`for i := uint32(0); i < num; i++`), with `fuel` iterations left and loop
variable `i`. `none` means that the loop ran to its end. -/
def existenceCheck (w : World) (es : EOTSStore) (valPk chainID : Bytes) (startHeight : Nat) :
    Nat → Nat → Option Err
  | 0, _ => none
  | fuel + 1, i =>
    match randPairExists w es valPk chainID (addUint64 startHeight i) with
    | .error e => some e
    | .ok true => some .ErrSchnorrRandomnessALreadyCreated
    | .ok false => existenceCheck w es valPk chainID startHeight fuel (i + 1)

/-- The loop of `CreateRandomnessPairList`, with `fuel` iterations left, loop
variable `i`, the store `es` and the list `prList` built so far. -/
def createLoop (w : World) (valPk chainID : Bytes) (startHeight : Nat) :
    Nat → Nat → EOTSStore → List Nat → Except Err (List Nat) × EOTSStore
  | 0, _, es, prList => (.ok prList, es)
  | fuel + 1, i, es, prList =>
    match w.randGen w.unixNano i with
    | .error e => (.error (.wrapf "failed to generate randomness pair" e), es)
    | .ok (eotsSR, eotsPR) =>
      match NewSchnorrRandPair (beBytes 32 eotsSR) (beBytes 32 eotsPR) with
      | .error _ => (.error (.errorf "invalid Schnorr randomness"), es)
      | .ok randPair =>
        match saveRandPair w es valPk chainID (addUint64 startHeight i) randPair with
        | (.error e, es') => (.error (.wrapf "failed to save randomness pair" e), es')
        | (.ok _, es') =>
          createLoop w valPk chainID startHeight fuel (i + 1) es' (prList ++ [eotsPR])

/-- The method `LocalEOTSManager.CreateRandomnessPairList` on the store of the
manager: the generator is seeded with the clock reading, then `num` pairs are
drawn and written one by one. -/
def CreateRandomnessPairList (w : World) (es : EOTSStore) (valPk chainID : Bytes)
    (startHeight num : Nat) : Except Err (List Nat) × EOTSStore :=
  createLoop w valPk chainID startHeight num 0 es []

/-- The method `LocalEOTSManager.CreateRandomnessPairListWithExistenceCheck`. -/
def CreateRandomnessPairListWithExistenceCheck (w : World) (es : EOTSStore)
    (valPk chainID : Bytes) (startHeight num : Nat) : Except Err (List Nat) × EOTSStore :=
  match existenceCheck w es valPk chainID startHeight num 0 with
  | some e => (.error e, es)
  | none => CreateRandomnessPairList w es valPk chainID startHeight num

/-- The existence loop of `CreateRandomnessPairListWithExistenceCheck` together
with the heights it passes to `randPairExists`, in order. -/
def existenceCheckTraced (w : World) (es : EOTSStore) (valPk chainID : Bytes)
    (startHeight : Nat) : Nat → Nat → Option Err × List Nat
  | 0, _ => (none, [])
  | fuel + 1, i =>
    match randPairExists w es valPk chainID (addUint64 startHeight i) with
    | .error e => (some e, [addUint64 startHeight i])
    | .ok true => (some .ErrSchnorrRandomnessALreadyCreated, [addUint64 startHeight i])
    | .ok false =>
      ((existenceCheckTraced w es valPk chainID startHeight fuel (i + 1)).1,
        addUint64 startHeight i
          :: (existenceCheckTraced w es valPk chainID startHeight fuel (i + 1)).2)

/-- The loop of `CreateRandomnessPairList` together with the heights at which
`saveRandPair` has written a pair, in order. -/
def createLoopTraced (w : World) (valPk chainID : Bytes) (startHeight : Nat) :
    Nat → Nat → EOTSStore → List Nat → (Except Err (List Nat) × EOTSStore) × List Nat
  | 0, _, es, prList => ((.ok prList, es), [])
  | fuel + 1, i, es, prList =>
    match w.randGen w.unixNano i with
    | .error e => ((.error (.wrapf "failed to generate randomness pair" e), es), [])
    | .ok (eotsSR, eotsPR) =>
      match NewSchnorrRandPair (beBytes 32 eotsSR) (beBytes 32 eotsPR) with
      | .error _ => ((.error (.errorf "invalid Schnorr randomness"), es), [])
      | .ok randPair =>
        match saveRandPair w es valPk chainID (addUint64 startHeight i) randPair with
        | (.error e, es') => ((.error (.wrapf "failed to save randomness pair" e), es'), [])
        | (.ok _, es') =>
          ((createLoopTraced w valPk chainID startHeight fuel (i + 1) es'
              (prList ++ [eotsPR])).1,
            addUint64 startHeight i
              :: (createLoopTraced w valPk chainID startHeight fuel (i + 1) es'
                (prList ++ [eotsPR])).2)

/-- The heights of a batch in loop order: `startHeight + uint64(i)` for
`i = 0, …, num - 1`. -/
def batchHeights (startHeight num : Nat) : List Nat :=
  (List.range num).map (addUint64 startHeight)

/-! ## Signing primitives -/

/-- The method `ModNScalar.SetByteSlice` of `btcec`: the first 32 bytes as a
big-endian number, reduced modulo the group order. -/
def SetByteSlice (b : Bytes) : Nat := beNat (b.take 32) % secp256k1N

/-- The challenge `e = H(R_x ‖ P_x ‖ msg)` of a signature with secret nonce `k`
and private key `sk`, as a scalar modulo the group order. -/
def challenge (w : World) (sk k : Nat) (msg : Bytes) : Nat :=
  w.taggedHash (beBytes 32 (w.scalarBaseMultX k) ++ beBytes 32 (w.scalarBaseMultX sk) ++ msg)
    % secp256k1N

/-- Modelled from the spec: `eots.Sign` belongs to a library that is not among
the source files; `eots_sign(sk, secret_nonce, msg)` computes the challenge `e`
and returns `s = secret_nonce + e·sk mod n`, and fails if `sk` or the nonce is
zero. -/
def eots.Sign (w : World) (sk k : Nat) (msg : Bytes) : Except Err Nat :=
  if sk = 0 then .error (.errorf "private key is zero")
  else if k = 0 then .error (.errorf "private rand is zero")
  else .ok ((k + challenge w sk k msg * sk) % secp256k1N)

/-- Square-and-multiply: with `fuel ≥ e`, the value is congruent to
`acc * a ^ e` modulo `m`. -/
def powModAux (m : Nat) : Nat → Nat → Nat → Nat → Nat
  | 0, _, _, acc => acc
  | fuel + 1, a, e, acc =>
    if e = 0 then acc
    else powModAux m fuel (a * a % m) (e / 2) (if e % 2 = 1 then acc * a % m else acc)

/-- Modular exponentiation `a ^ e mod m`. -/
def powMod (a e m : Nat) : Nat := powModAux m e a e 1 % m

/-- The inverse of a scalar modulo the group order, computed as
`a ^ (n - 2) mod n`. -/
def modInverse (a : Nat) : Nat := powMod a (secp256k1N - 2) secp256k1N

/-! ## The local manager -/

/-- The type `LocalEOTSManager`. -/
structure LocalEOTSManager where
  kr : Keyring
  es : EOTSStore

/-- The method `kr.Key(name)` of the keyring: the record stored under `name`. -/
def Keyring.Key (kr : Keyring) (name : String) : Except Err Record :=
  match kvGet name kr with
  | none => .error .notFound
  | some k => .ok k

/-- The method `kr.NewAccount`: the derived record is stored under `name`; a
failed derivation leaves the keyring as it was. -/
def Keyring.NewAccount (w : World) (kr : Keyring) (name mnemonic passPhrase : String) :
    Except Err Record × Keyring :=
  match w.newAccount name mnemonic passPhrase with
  | .error e => (.error e, kr)
  | .ok record => (.ok record, kvPut name record kr)

/-- The method `LocalEOTSManager.keyExists`. -/
def keyExists (lm : LocalEOTSManager) (name : String) : Bool :=
  match lm.kr.Key name with
  | .ok _ => true
  | .error _ => false

/-- The method `LocalEOTSManager.CreateValidator`. -/
def CreateValidator (w : World) (lm : LocalEOTSManager) (name passPhrase : String) :
    Except Err Bytes × LocalEOTSManager :=
  if keyExists lm name then (.error .ErrValidatorAlreadyExisted, lm)
  else
    match w.algoFault with
    | some e => (.error e, lm)
    | none =>
    match w.NewEntropy with
    | .error e => (.error e, lm)
    | .ok entropySeed =>
    match w.NewMnemonic entropySeed with
    | .error e => (.error e, lm)
    | .ok mnemonic =>
    match lm.kr.NewAccount w name mnemonic passPhrase with
    | (.error e, kr') => (.error e, { lm with kr := kr' })
    | (.ok record, kr') =>
    match record.GetPubKey with
    | .error e => (.error e, { lm with kr := kr' })
    | .ok (.other _) => (.error (.errorf "unsupported key type in keyring"), { lm with kr := kr' })
    | .ok (.secp256k1 key) =>
    match w.ParsePubKey key with
    | .error e => (.error e, { lm with kr := kr' })
    | .ok pk =>
    match saveValidatorKey w lm.es (beBytes 32 pk.1) name with
    | (.error e, es') => (.error e, { kr := kr', es := es' })
    | (.ok _, es') => (.ok (beBytes 32 pk.1), { kr := kr', es := es' })

/-- The method `LocalEOTSManager.getPrivRandomness`. -/
def getPrivRandomness (w : World) (lm : LocalEOTSManager) (valPk chainID : Bytes)
    (height : Nat) : Except Err Nat :=
  match getRandPair w lm.es valPk chainID height with
  | .error e => .error e
  | .ok randPair =>
    if randPair.SecRand.length ≠ SchnorrRandomnessLength then
      .error (.errorf "the private randomness should be 32 bytes")
    else .ok (SetByteSlice randPair.SecRand)

/-- The method `LocalEOTSManager.GetValidatorKeyName`. -/
def GetValidatorKeyName (w : World) (lm : LocalEOTSManager) (valPk : Bytes) :
    Except Err String :=
  getValidatorKeyName w lm.es valPk

/-- The conversion at the end of `getEOTSPrivKey`: the scalar of a record whose
cached private key is a secp256k1 key (`btcec.PrivKeyFromBytes`). -/
def privKeyOfRecord (k : Record) : Except Err Nat :=
  match k.PrivKey with
  | .secp256k1 key => .ok (SetByteSlice key)
  | .other _ => .error (.errorf "unsupported key type in keyring")

/-- The method `LocalEOTSManager.getEOTSPrivKey`. -/
def getEOTSPrivKey (w : World) (lm : LocalEOTSManager) (valPk : Bytes) : Except Err Nat :=
  match getValidatorKeyName w lm.es valPk with
  | .error e => .error e
  | .ok keyName =>
    match lm.kr.Key keyName with
    | .error e => .error e
    | .ok k => privKeyOfRecord k

/-- The arguments `SignEOTS` hands to `eots.Sign` (private key, secret nonce),
or the error it returns before reaching the call. -/
def signEOTSArgs (w : World) (lm : LocalEOTSManager) (valPk chainID : Bytes)
    (height : Nat) : Except Err (Nat × Nat) :=
  match getPrivRandomness w lm valPk chainID height with
  | .error e => .error (.wrapf "failed to get private randomness" e)
  | .ok privRand =>
    match getEOTSPrivKey w lm valPk with
    | .error e => .error (.wrapf "failed to get EOTS private key" e)
    | .ok privKey => .ok (privKey, privRand)

/-- The method `LocalEOTSManager.SignEOTS`, with the manager as the call leaves
it: the body reads the stores and writes nothing. -/
def SignEOTS (w : World) (lm : LocalEOTSManager) (valPk chainID msg : Bytes) (height : Nat) :
    Except Err Nat × LocalEOTSManager :=
  match signEOTSArgs w lm valPk chainID height with
  | .error e => (.error e, lm)
  | .ok (privKey, privRand) => (eots.Sign w privKey privRand msg, lm)

/-! ## The gRPC client -/

/-- A call that leaves the process of the client. -/
inductive RpcCall where
  | Dial (remoteAddr : String)
  | Ping
  | CreateKey (name passphrase hdPath : String)
  | CreateMasterRandPair (uid chainID : Bytes) (passphrase : String)
  | KeyRecord (uid : Bytes) (passphrase : String)
  | SignEOTS (uid chainID msg : Bytes) (height : Nat) (passphrase : String)
  | SignSchnorrSig (uid msg : Bytes) (passphrase : String)
  deriving DecidableEq, Repr

/-- The network as the client sees it: the failure, if any, of `grpc.Dial` to an
address and of the `Ping` stub on a connection to it. -/
structure Network where
  Dial : String → Option Err
  Ping : String → Option Err

/-- The type `EOTSManagerGRpcClient`: the connection, named by its address. -/
structure EOTSManagerGRpcClient where
  conn : String
  deriving DecidableEq, Repr

/-- The method `EOTSManagerGRpcClient.Ping`, with the calls it issues. -/
def EOTSManagerGRpcClient.Ping (net : Network) (c : EOTSManagerGRpcClient) :
    Option Err × List RpcCall :=
  match net.Ping c.conn with
  | some err => (some err, [.Ping])
  | none => (none, [.Ping])

/-- The constructor `NewEOTSManagerGRpcClient`, with the calls it issues in
order. -/
def NewEOTSManagerGRpcClient (net : Network) (remoteAddr : String) :
    Except Err EOTSManagerGRpcClient × List RpcCall :=
  match net.Dial remoteAddr with
  | some err =>
    (.error (.wrapf ("failed to build gRPC connection to " ++ remoteAddr) err),
      [.Dial remoteAddr])
  | none =>
    match EOTSManagerGRpcClient.Ping net { conn := remoteAddr } with
    | (some err, calls) =>
      (.error (.wrapf "the EOTS manager server is not responding" err),
        .Dial remoteAddr :: calls)
    | (none, calls) => (.ok { conn := remoteAddr }, .Dial remoteAddr :: calls)

/-- The answers of the server behind the stub `proto.EOTSManagerClient` of a
connection (named by its address), one field per RPC other than `Ping`: the
fields of the response, or the error of the call. -/
structure Stub where
  CreateKey : String → String → String → String → Except Err Bytes
  CreateMasterRandPair : String → Bytes → Bytes → String → Except Err String
  KeyRecord : String → Bytes → String → Except Err (String × Bytes)
  SignEOTS : String → Bytes → Bytes → Bytes → Nat → String → Except Err Bytes
  SignSchnorrSig : String → Bytes → Bytes → String → Except Err Bytes

/-- The type `types.KeyRecord`: a name and a private key (its scalar). -/
structure types.KeyRecord where
  Name : String
  PrivKey : Nat
  deriving DecidableEq, Repr

/-- The prime of the secp256k1 field. -/
def secp256k1P : Nat :=
  0xFFFFFFFFFFFFFFFFFFFFFFFFFFFFFFFFFFFFFFFFFFFFFFFFFFFFFFFEFFFFFC2F

/-- The function `schnorr.ParseSignature` of `btcec`: a signature is 64 bytes,
`r` on the first 32 below the field prime and `s` on the last 32 below the group
order. -/
def schnorr.ParseSignature (sig : Bytes) : Except Err (Nat × Nat) :=
  if sig.length < 64 then .error (.errorf "malformed signature: too short")
  else if sig.length > 64 then .error (.errorf "malformed signature: too long")
  else if secp256k1P ≤ beNat (sig.take 32) then
    .error (.errorf "invalid signature: r >= field prime")
  else if secp256k1N ≤ beNat (sig.drop 32) then
    .error (.errorf "invalid signature: s >= group order")
  else .ok (beNat (sig.take 32), beNat (sig.drop 32))

/-- The method `EOTSManagerGRpcClient.CreateKey`, with the calls it issues. -/
def EOTSManagerGRpcClient.CreateKey (stub : Stub) (c : EOTSManagerGRpcClient)
    (name passphrase hdPath : String) : Except Err Bytes × List RpcCall :=
  match stub.CreateKey c.conn name passphrase hdPath with
  | .error err => (.error err, [.CreateKey name passphrase hdPath])
  | .ok Pk => (.ok Pk, [.CreateKey name passphrase hdPath])

/-- The method `EOTSManagerGRpcClient.CreateMasterRandPair`, with the calls it
issues. -/
def EOTSManagerGRpcClient.CreateMasterRandPair (stub : Stub) (c : EOTSManagerGRpcClient)
    (uid chainID : Bytes) (passphrase : String) : Except Err String × List RpcCall :=
  match stub.CreateMasterRandPair c.conn uid chainID passphrase with
  | .error err => (.error err, [.CreateMasterRandPair uid chainID passphrase])
  | .ok MasterPubRand => (.ok MasterPubRand, [.CreateMasterRandPair uid chainID passphrase])

/-- The method `EOTSManagerGRpcClient.KeyRecord`, with the calls it issues: the
private key is `btcec.PrivKeyFromBytes` of the field `PrivateKey`. -/
def EOTSManagerGRpcClient.KeyRecord (stub : Stub) (c : EOTSManagerGRpcClient)
    (uid : Bytes) (passphrase : String) : Except Err types.KeyRecord × List RpcCall :=
  match stub.KeyRecord c.conn uid passphrase with
  | .error err => (.error err, [.KeyRecord uid passphrase])
  | .ok (Name, PrivateKey) =>
    (.ok { Name := Name, PrivKey := SetByteSlice PrivateKey }, [.KeyRecord uid passphrase])

/-- The method `EOTSManagerGRpcClient.SignEOTS`, with the calls it issues: the
scalar is `SetByteSlice` of the field `Sig`, whose overflow flag is dropped. -/
def EOTSManagerGRpcClient.SignEOTS (stub : Stub) (c : EOTSManagerGRpcClient)
    (uid chaiID msg : Bytes) (height : Nat) (passphrase : String) :
    Except Err Nat × List RpcCall :=
  match stub.SignEOTS c.conn uid chaiID msg height passphrase with
  | .error err => (.error err, [.SignEOTS uid chaiID msg height passphrase])
  | .ok Sig => (.ok (SetByteSlice Sig), [.SignEOTS uid chaiID msg height passphrase])

/-- The method `EOTSManagerGRpcClient.SignSchnorrSig`, with the calls it
issues. -/
def EOTSManagerGRpcClient.SignSchnorrSig (stub : Stub) (c : EOTSManagerGRpcClient)
    (uid msg : Bytes) (passphrase : String) : Except Err (Nat × Nat) × List RpcCall :=
  match stub.SignSchnorrSig c.conn uid msg passphrase with
  | .error err => (.error err, [.SignSchnorrSig uid msg passphrase])
  | .ok Sig =>
    match schnorr.ParseSignature Sig with
    | .error err => (.error err, [.SignSchnorrSig uid msg passphrase])
    | .ok sig => (.ok sig, [.SignSchnorrSig uid msg passphrase])

/-! ## Observations and sample values -/

/-- The pair the randomness store holds for the fingerprint
`(pk, chainID, height)`, if any. -/
def EOTSStore.pairAt (es : EOTSStore) (pk chainID : Bytes) (height : Nat) :
    Option SchnorrRandPair :=
  kvGet (getRandPairKey pk chainID height) es.rand

/-- A world without failures: the generator returns `(seed-independent)` small
values, the keyring derives a secp256k1 record, and the hash and the base-point
multiplication are simple arithmetic stand-ins. -/
def calmWorld : World where
  unixNano := 1700000000000000000
  randGen := fun _ i => .ok (1000 + i, 2000 + i)
  existsFault := fun _ => none
  getFault := fun _ => none
  putFault := fun _ => none
  nameGetFault := fun _ => none
  namePutFault := fun _ => none
  algoFault := none
  NewEntropy := .ok [7, 7, 7]
  NewMnemonic := fun _ => .ok "abandon ability able"
  newAccount := fun name _ _ =>
    .ok { Name := name, GetPubKey := .ok (.secp256k1 [2, 5]), PrivKey := .secp256k1 [9] }
  ParsePubKey := fun key => .ok (beNat key, 0)
  scalarBaseMultX := fun k => 3 * k
  taggedHash := fun bs => beNat bs

/-- The world `calmWorld` in which the write of the second height of a batch
starting at height 100 for validator `[2]` on chain `[66]` fails. -/
def secondWriteFails : World :=
  { calmWorld with
    putFault := fun k =>
      if k = getRandPairKey [2] [66] 101 then some (.fault "disk full") else none }

/-- A store without entries. -/
def emptyStore : EOTSStore := { rand := [], keys := [] }

/-- A store holding one pair, for validator `[2]` on chain `[66]` at height 102. -/
def oneStore : EOTSStore :=
  { rand := [(getRandPairKey [2] [66] 102,
      { PubRand := beBytes 32 2002, SecRand := beBytes 32 1002 })],
    keys := [] }

/-- A manager with an empty keyring and empty stores. -/
def freshManager : LocalEOTSManager := { kr := [], es := emptyStore }

/-- The manager `freshManager` after `CreateValidator "alice" "pw"`. -/
def aliceManager : LocalEOTSManager :=
  (CreateValidator calmWorld freshManager "alice" "pw").2

/-- The public key `CreateValidator "alice" "pw"` returns in `calmWorld`. -/
def alicePk : Bytes := beBytes 32 517

/-- The manager `aliceManager` after a batch of five nonces from height 100 on
chain `[66]`. -/
def aliceReady : LocalEOTSManager :=
  { aliceManager with
    es := (CreateRandomnessPairListWithExistenceCheck calmWorld aliceManager.es alicePk [66]
      100 5).2 }

/-- A network on which every dial and every `Ping` succeeds. -/
def liveNetwork : Network := { Dial := fun _ => none, Ping := fun _ => none }

/-- A network on which dialing succeeds and no server answers the `Ping`. -/
def deafNetwork : Network :=
  { Dial := fun _ => none, Ping := fun _ => some (.fault "connection refused") }

/-- A network on which dialing fails. -/
def brokenNetwork : Network :=
  { Dial := fun _ => some (.fault "bad target"), Ping := fun _ => none }

/-- The world `calmWorld` at clock reading `t`, with a generator whose stream
depends on its seed. -/
def clockWorld (t : Int) : World :=
  { calmWorld with
    unixNano := t
    randGen := fun seed i =>
      .ok ((seed.toNat * 7 + i) % 1000003 + 1, (seed.toNat * 11 + i) % 1000033 + 1) }

/-- The world `calmWorld` in which every write of the `pk → name` index fails. -/
def indexWriteFails : World :=
  { calmWorld with namePutFault := fun _ => some (.fault "disk full") }

/-- A server that is down: every call fails. -/
def downStub : Stub where
  CreateKey := fun _ _ _ _ => .error (.fault "unavailable")
  CreateMasterRandPair := fun _ _ _ _ => .error (.fault "unavailable")
  KeyRecord := fun _ _ _ => .error (.fault "unavailable")
  SignEOTS := fun _ _ _ _ _ _ => .error (.fault "unavailable")
  SignSchnorrSig := fun _ _ _ _ => .error (.fault "unavailable")

/-- A server whose calls succeed with ill-formed fields: an empty `Sig`, a
33-byte `PrivateKey` of bytes `0xFF`, and a 3-byte Schnorr signature. -/
def oddStub : Stub where
  CreateKey := fun _ _ _ _ => .ok [2, 5]
  CreateMasterRandPair := fun _ _ _ _ => .ok "mpr"
  KeyRecord := fun _ _ _ => .ok ("alice", List.replicate 33 255)
  SignEOTS := fun _ _ _ _ _ _ => .ok []
  SignSchnorrSig := fun _ _ _ _ => .ok [1, 2, 3]

/-- A network on which `Ping` fails with a given error. -/
def pingFails (e : Err) : Network := { Dial := fun _ => none, Ping := fun _ => some e }

/-! ## Lemmas on the key-value maps and on the encoding -/

theorem kvGet_kvPut_self {κ β : Type} [DecidableEq κ] (k : κ) (v : β) (m : List (κ × β)) :
    kvGet k (kvPut k v m) = some v := by
  induction m with
  | nil => simp [kvPut, kvGet]
  | cons hd tl ih =>
    obtain ⟨k', v'⟩ := hd
    by_cases h : k' = k
    · simp [kvPut, kvGet, h]
    · simp [kvPut, kvGet, h, ih]

theorem kvGet_kvPut_other {κ β : Type} [DecidableEq κ] (k k0 : κ) (v : β) (m : List (κ × β))
    (hne : k ≠ k0) : kvGet k (kvPut k0 v m) = kvGet k m := by
  induction m with
  | nil =>
    have h0 : ¬ k0 = k := fun h => hne h.symm
    simp [kvPut, kvGet, h0]
  | cons hd tl ih =>
    obtain ⟨k', v'⟩ := hd
    by_cases h : k' = k0
    · have h1 : ¬ k0 = k := fun h2 => hne h2.symm
      have h2 : ¬ k' = k := fun h3 => hne (h3.symm.trans h)
      simp [kvPut, kvGet, h, h1, h2]
    · by_cases h3 : k' = k
      · subst h3
        simp [kvPut, kvGet, h]
      · simp [kvPut, kvGet, h, h3, ih]

theorem beNat_append_singleton (xs : Bytes) (b : Nat) :
    beNat (xs ++ [b]) = beNat xs * 256 + b := by
  simp [beNat, List.foldl_append]

theorem beNat_beBytes (len v : Nat) : beNat (beBytes len v) = v % 256 ^ len := by
  induction len generalizing v with
  | zero => simp [beBytes, beNat, Nat.mod_one]
  | succ n ih =>
    rw [beBytes, beNat_append_singleton, ih, pow_succ, Nat.mul_comm (256 ^ n) 256,
      Nat.mod_mul]
    omega

theorem beBytes_length (len v : Nat) : (beBytes len v).length = len := by
  induction len generalizing v with
  | zero => simp [beBytes]
  | succ n ih => simp [beBytes, ih]

theorem getRandPairKey_inj_height (pk chainID : Bytes) (h1 h2 : Nat)
    (h : getRandPairKey pk chainID h1 = getRandPairKey pk chainID h2) :
    h1 % 2 ^ 64 = h2 % 2 ^ 64 := by
  have h3 : Uint64ToBigEndian h1 = Uint64ToBigEndian h2 :=
    List.append_cancel_left h
  have h4 := congrArg beNat h3
  simp only [Uint64ToBigEndian, beNat_beBytes] at h4
  norm_num at h4
  norm_num
  exact h4

/-- Two loop indices below `2 ^ 64` give two different heights, whatever the
start height. -/
theorem height_ne_of_index_ne (startHeight a b : Nat) (ha : a < 2 ^ 64) (hb : b < 2 ^ 64)
    (hab : a ≠ b) : (startHeight + a) % 2 ^ 64 ≠ (startHeight + b) % 2 ^ 64 := by
  omega

theorem key_ne_of_index_ne (pk chainID : Bytes) (startHeight a b : Nat) (ha : a < 2 ^ 64)
    (hb : b < 2 ^ 64) (hab : a ≠ b) :
    getRandPairKey pk chainID (addUint64 startHeight a) ≠
      getRandPairKey pk chainID (addUint64 startHeight b) := by
  intro h
  have h1 := getRandPairKey_inj_height pk chainID _ _ h
  simp only [addUint64, Nat.mod_mod] at h1
  exact height_ne_of_index_ne startHeight a b ha hb hab h1

/-! ## Lemmas on the two loops -/

/-- The existence loop stops with `ErrSchnorrRandomnessALreadyCreated` at the
first stored height when the queries up to it do not fail. -/
theorem existenceCheck_hit (w : World) (es : EOTSStore) (valPk chainID : Bytes)
    (startHeight : Nat) (fuel i j : Nat) (hij : i ≤ j) (hj : j < i + fuel)
    (hex : (kvGet (getRandPairKey valPk chainID (addUint64 startHeight j)) es.rand).isSome
      = true)
    (hq : ∀ k, i ≤ k → k ≤ j →
      w.existsFault (getRandPairKey valPk chainID (addUint64 startHeight k)) = none) :
    existenceCheck w es valPk chainID startHeight fuel i
      = some .ErrSchnorrRandomnessALreadyCreated := by
  induction fuel generalizing i with
  | zero => omega
  | succ n ih =>
    have hqi := hq i (le_refl i) hij
    by_cases hcur :
        (kvGet (getRandPairKey valPk chainID (addUint64 startHeight i)) es.rand).isSome = true
    · simp [existenceCheck, randPairExists, hqi, hcur]
    · have hne : i ≠ j := by
        intro h
        subst h
        exact hcur hex
      have hcur2 :
          (kvGet (getRandPairKey valPk chainID (addUint64 startHeight i)) es.rand).isSome
            = false := by
        simpa using hcur
      simp only [existenceCheck, randPairExists, hqi, hcur2]
      exact ih (i + 1) (by omega) (by omega) (fun k hk1 hk2 => hq k (by omega) hk2)

/-- When the existence loop runs to its end, no height of the range is stored. -/
theorem existenceCheck_none (w : World) (es : EOTSStore) (valPk chainID : Bytes)
    (startHeight : Nat) (fuel i : Nat)
    (h : existenceCheck w es valPk chainID startHeight fuel i = none) :
    ∀ k, i ≤ k → k < i + fuel →
      kvGet (getRandPairKey valPk chainID (addUint64 startHeight k)) es.rand = none := by
  induction fuel generalizing i with
  | zero => intro k h1 h2; omega
  | succ n ih =>
    intro k h1 h2
    simp only [existenceCheck, randPairExists] at h
    cases hf : w.existsFault (getRandPairKey valPk chainID (addUint64 startHeight i)) with
    | some e => simp [hf] at h
    | none =>
      simp only [hf] at h
      cases hg : kvGet (getRandPairKey valPk chainID (addUint64 startHeight i)) es.rand with
      | some rp => simp [hg] at h
      | none =>
        simp only [hg, Option.isSome_none] at h
        by_cases hk : k = i
        · subst hk; exact hg
        · exact ih (i + 1) h k (by omega) (by omega)

/-- The write loop changes the randomness map only at the heights of its own
range, and never touches the index. -/
theorem createLoop_frame (w : World) (valPk chainID : Bytes) (startHeight : Nat)
    (fuel i : Nat) (es : EOTSStore) (prList : List Nat) (key : Bytes)
    (hkey : ∀ k, i ≤ k → k < i + fuel →
      key ≠ getRandPairKey valPk chainID (addUint64 startHeight k)) :
    kvGet key (createLoop w valPk chainID startHeight fuel i es prList).2.rand
      = kvGet key es.rand := by
  induction fuel generalizing i es prList with
  | zero => simp [createLoop]
  | succ n ih =>
    simp only [createLoop]
    cases hr : w.randGen w.unixNano i with
    | error e => simp
    | ok pr =>
      obtain ⟨eotsSR, eotsPR⟩ := pr
      simp only [NewSchnorrRandPair, beBytes_length, SchnorrRandomnessLength, ne_eq,
        not_true_eq_false, if_false, saveRandPair]
      cases hp : w.putFault (getRandPairKey valPk chainID (addUint64 startHeight i)) with
      | some e => simp
      | none =>
        simp only
        rw [ih (i + 1) _ _ (fun k h1 h2 => hkey k (by omega) (by omega))]
        exact kvGet_kvPut_other _ _ _ _ (hkey i (le_refl i) (by omega))

theorem createLoop_keys (w : World) (valPk chainID : Bytes) (startHeight : Nat)
    (fuel i : Nat) (es : EOTSStore) (prList : List Nat) :
    (createLoop w valPk chainID startHeight fuel i es prList).2.keys = es.keys := by
  induction fuel generalizing i es prList with
  | zero => simp [createLoop]
  | succ n ih =>
    simp only [createLoop]
    cases hr : w.randGen w.unixNano i with
    | error e => simp
    | ok pr =>
      obtain ⟨eotsSR, eotsPR⟩ := pr
      simp only [NewSchnorrRandPair, beBytes_length, SchnorrRandomnessLength, ne_eq,
        not_true_eq_false, if_false, saveRandPair]
      cases hp : w.putFault (getRandPairKey valPk chainID (addUint64 startHeight i)) with
      | some e => simp
      | none =>
        simp only
        rw [ih (i + 1)]

/-- When the write loop fails, it fails at one iteration `j`: the heights of the
iterations before `j` are stored and those from `j` on are not. -/
theorem createLoop_error (w : World) (valPk chainID : Bytes) (startHeight : Nat)
    (fuel i : Nat) (es es' : EOTSStore) (prList : List Nat) (e : Err)
    (hbound : i + fuel ≤ 2 ^ 64)
    (hfree : ∀ k, i ≤ k → k < i + fuel →
      kvGet (getRandPairKey valPk chainID (addUint64 startHeight k)) es.rand = none)
    (h : createLoop w valPk chainID startHeight fuel i es prList = (.error e, es')) :
    ∃ j, i ≤ j ∧ j < i + fuel ∧
      ((∃ e0, w.randGen w.unixNano j = .error e0 ∧
          e = .wrapf "failed to generate randomness pair" e0) ∨
        (∃ e0, w.putFault (getRandPairKey valPk chainID (addUint64 startHeight j)) = some e0 ∧
          e = .wrapf "failed to save randomness pair" e0)) ∧
      (∀ k, i ≤ k → k < j →
        (kvGet (getRandPairKey valPk chainID (addUint64 startHeight k)) es'.rand).isSome = true) ∧
      (∀ k, j ≤ k → k < i + fuel →
        kvGet (getRandPairKey valPk chainID (addUint64 startHeight k)) es'.rand = none) := by
  induction fuel generalizing i es prList with
  | zero => simp [createLoop] at h
  | succ n ih =>
    simp only [createLoop] at h
    cases hr : w.randGen w.unixNano i with
    | error e0 =>
      simp only [hr, Prod.mk.injEq, Except.error.injEq] at h
      obtain ⟨h1, h2⟩ := h
      subst h2
      exact ⟨i, le_refl i, by omega, Or.inl ⟨e0, hr, h1.symm⟩,
        fun k h3 h4 => by omega, fun k h3 h4 => hfree k h3 h4⟩
    | ok pr =>
      obtain ⟨eotsSR, eotsPR⟩ := pr
      simp only [hr, NewSchnorrRandPair, beBytes_length, SchnorrRandomnessLength, ne_eq,
        not_true_eq_false, if_false, saveRandPair] at h
      cases hp : w.putFault (getRandPairKey valPk chainID (addUint64 startHeight i)) with
      | some e0 =>
        simp only [hp, Prod.mk.injEq, Except.error.injEq] at h
        obtain ⟨h1, h2⟩ := h
        subst h2
        exact ⟨i, le_refl i, by omega, Or.inr ⟨e0, hp, h1.symm⟩,
          fun k h3 h4 => by omega, fun k h3 h4 => hfree k h3 h4⟩
      | none =>
        simp only [hp] at h
        have hfree1 : ∀ k, i + 1 ≤ k → k < i + 1 + n →
            kvGet (getRandPairKey valPk chainID (addUint64 startHeight k))
              (kvPut (getRandPairKey valPk chainID (addUint64 startHeight i))
                { PubRand := beBytes 32 eotsPR, SecRand := beBytes 32 eotsSR } es.rand) = none := by
          intro k h3 h4
          rw [kvGet_kvPut_other _ _ _ _
            (key_ne_of_index_ne valPk chainID startHeight k i (by omega) (by omega) (by omega))]
          exact hfree k (by omega) (by omega)
        obtain ⟨j, hj1, hj2, hj3, hj4, hj5⟩ := ih (i + 1) _ _ (by omega) hfree1 h
        refine ⟨j, by omega, by omega, hj3, ?_, fun k h3 h4 => hj5 k h3 (by omega)⟩
        intro k h3 h4
        by_cases hk : k = i
        · subst hk
          have hes := congrArg Prod.snd h
          simp only at hes
          rw [← hes, createLoop_frame w valPk chainID startHeight n (k + 1) _ _ _
            (fun m h5 h6 =>
              key_ne_of_index_ne valPk chainID startHeight k m (by omega) (by omega) (by omega))]
          simp [kvGet_kvPut_self]
        · exact hj4 k (by omega) h4

/-- When the write loop succeeds, it has appended one public nonce per
iteration, in order, and each height of its range holds the pair whose public
part encodes the nonce appended for it. -/
theorem createLoop_ok (w : World) (valPk chainID : Bytes) (startHeight : Nat)
    (fuel i : Nat) (es es' : EOTSStore) (prList l : List Nat)
    (hbound : i + fuel ≤ 2 ^ 64)
    (h : createLoop w valPk chainID startHeight fuel i es prList = (.ok l, es')) :
    ∃ prs, l = prList ++ prs ∧ prs.length = fuel ∧
      ∀ k, k < fuel → ∃ rp x,
        kvGet (getRandPairKey valPk chainID (addUint64 startHeight (i + k))) es'.rand = some rp ∧
        prs[k]? = some x ∧ rp.PubRand = beBytes 32 x := by
  induction fuel generalizing i es prList with
  | zero =>
    simp only [createLoop, Prod.mk.injEq, Except.ok.injEq] at h
    exact ⟨[], by simp [h.1], rfl, fun k hk => by omega⟩
  | succ n ih =>
    simp only [createLoop] at h
    cases hr : w.randGen w.unixNano i with
    | error e0 => simp [hr] at h
    | ok pr =>
      obtain ⟨eotsSR, eotsPR⟩ := pr
      simp only [hr, NewSchnorrRandPair, beBytes_length, SchnorrRandomnessLength, ne_eq,
        not_true_eq_false, if_false, saveRandPair] at h
      cases hp : w.putFault (getRandPairKey valPk chainID (addUint64 startHeight i)) with
      | some e0 => simp [hp] at h
      | none =>
        simp only [hp] at h
        obtain ⟨prs, h1, h2, h3⟩ := ih (i + 1) _ _ (by omega) h
        refine ⟨eotsPR :: prs, by simp [h1], by simp [h2], ?_⟩
        intro k hk
        cases k with
        | zero =>
          have hes := congrArg Prod.snd h
          simp only at hes
          refine ⟨{ PubRand := beBytes 32 eotsPR, SecRand := beBytes 32 eotsSR }, eotsPR, ?_, ?_, ?_⟩
          · rw [Nat.add_zero, ← hes, createLoop_frame w valPk chainID startHeight n (i + 1) _ _ _
              (fun m h5 h6 =>
                key_ne_of_index_ne valPk chainID startHeight i m (by omega) (by omega) (by omega))]
            simp [kvGet_kvPut_self]
          · simp
          · rfl
        | succ m =>
          obtain ⟨rp, x, h4, h5, h6⟩ := h3 m (by omega)
          refine ⟨rp, x, ?_, ?_, h6⟩
          · have : i + (m + 1) = i + 1 + m := by omega
            rw [this]
            exact h4
          · simpa using h5

/-- The write loop keeps every pair of the store it starts from, when no height
of its range is stored. -/
theorem createLoop_keeps (w : World) (valPk chainID : Bytes) (startHeight : Nat)
    (fuel i : Nat) (es : EOTSStore) (prList : List Nat) (key : Bytes) (rp : SchnorrRandPair)
    (hfree : ∀ k, i ≤ k → k < i + fuel →
      kvGet (getRandPairKey valPk chainID (addUint64 startHeight k)) es.rand = none)
    (hkey : kvGet key es.rand = some rp) :
    kvGet key (createLoop w valPk chainID startHeight fuel i es prList).2.rand = some rp := by
  rw [createLoop_frame w valPk chainID startHeight fuel i es prList key]
  · exact hkey
  · intro k h1 h2 heq
    rw [heq, hfree k h1 h2] at hkey
    exact Option.noConfusion hkey

/-- When the existence loop stops with an error, either a height of the range
is stored or the query of a height of the range failed. -/
theorem existenceCheck_some (w : World) (es : EOTSStore) (valPk chainID : Bytes)
    (startHeight : Nat) (fuel i : Nat) (e : Err)
    (h : existenceCheck w es valPk chainID startHeight fuel i = some e) :
    ∃ j, i ≤ j ∧ j < i + fuel ∧
      ((e = .ErrSchnorrRandomnessALreadyCreated ∧
          (kvGet (getRandPairKey valPk chainID (addUint64 startHeight j)) es.rand).isSome = true) ∨
        w.existsFault (getRandPairKey valPk chainID (addUint64 startHeight j)) = some e) := by
  induction fuel generalizing i with
  | zero => simp [existenceCheck] at h
  | succ n ih =>
    simp only [existenceCheck, randPairExists] at h
    cases hf : w.existsFault (getRandPairKey valPk chainID (addUint64 startHeight i)) with
    | some e0 =>
      simp only [hf, Option.some.injEq] at h
      exact ⟨i, le_refl i, by omega, Or.inr (by rw [hf, h])⟩
    | none =>
      simp only [hf] at h
      cases hg : kvGet (getRandPairKey valPk chainID (addUint64 startHeight i)) es.rand with
      | some rp =>
        simp only [hg, Option.isSome_some, Option.some.injEq] at h
        exact ⟨i, le_refl i, by omega, Or.inl ⟨h.symm, by simp [hg]⟩⟩
      | none =>
        simp only [hg, Option.isSome_none] at h
        obtain ⟨j, h1, h2, h3⟩ := ih (i + 1) h
        exact ⟨j, by omega, by omega, h3⟩

/-! ## Randomness batches: the properties -/

/-- C1: if a pair is already stored for one height of the range and the
existence queries up to that height do not fail, the call returns
`ErrSchnorrRandomnessALreadyCreated` without a list and leaves the store as it
was. -/
theorem existing_pair_rejects_batch (w : World) (es : EOTSStore) (valPk chainID : Bytes)
    (startHeight num i : Nat) (hi : i < num)
    (hstored : (es.pairAt valPk chainID (addUint64 startHeight i)).isSome = true)
    (hquery : ∀ k, k ≤ i →
      w.existsFault (getRandPairKey valPk chainID (addUint64 startHeight k)) = none) :
    CreateRandomnessPairListWithExistenceCheck w es valPk chainID startHeight num
      = (.error .ErrSchnorrRandomnessALreadyCreated, es) := by
  have h := existenceCheck_hit w es valPk chainID startHeight num 0 i (Nat.zero_le i)
    (by omega) hstored (fun k _ hk => hquery k hk)
  simp [CreateRandomnessPairListWithExistenceCheck, h]

/-- Witness of C1: a batch of five from height 100 over a store holding
height 102. -/
theorem existing_pair_rejects_batch_witness :
    CreateRandomnessPairListWithExistenceCheck calmWorld oneStore [2] [66] 100 5
      = (.error .ErrSchnorrRandomnessALreadyCreated, oneStore) :=
  existing_pair_rejects_batch calmWorld oneStore [2] [66] 100 5 2 (by decide) (by decide)
    (fun _ _ => rfl)

/-- C2, counterexample: a batch of two from height 100 whose second write fails
returns an error, yet height 100, absent before the call, is stored after it. -/
theorem atomic_batch_counterexample :
    (CreateRandomnessPairListWithExistenceCheck secondWriteFails emptyStore [2] [66] 100 2).1
        = .error (.wrapf "failed to save randomness pair" (.fault "disk full")) ∧
      (emptyStore.pairAt [2] [66] (addUint64 100 0)).isSome = false ∧
      ((CreateRandomnessPairListWithExistenceCheck secondWriteFails emptyStore [2] [66] 100
        2).2.pairAt [2] [66] (addUint64 100 0)).isSome = true := by
  refine ⟨rfl, rfl, rfl⟩

/-- C2, amended: a call that fails in the existence loop (a stored height, or a
failed query) leaves the store as it was; a call that fails at iteration `j` of
the write loop (generation or write failure) has inserted the heights of the
iterations before `j`, which were absent, and leaves every other key of the
randomness map, in particular the heights from `j` on, and the index as they
were. -/
theorem failed_batch_effect (w : World) (es : EOTSStore) (valPk chainID : Bytes)
    (startHeight num : Nat) (hnum : num < 2 ^ 32) (e : Err) (es' : EOTSStore)
    (hfail : CreateRandomnessPairListWithExistenceCheck w es valPk chainID startHeight num
      = (.error e, es')) :
    (es' = es ∧ ∃ j, j < num ∧
        ((e = .ErrSchnorrRandomnessALreadyCreated ∧
            (es.pairAt valPk chainID (addUint64 startHeight j)).isSome = true) ∨
          w.existsFault (getRandPairKey valPk chainID (addUint64 startHeight j)) = some e)) ∨
      (∃ j, j < num ∧
        ((∃ e0, w.randGen w.unixNano j = .error e0 ∧
            e = .wrapf "failed to generate randomness pair" e0) ∨
          (∃ e0, w.putFault (getRandPairKey valPk chainID (addUint64 startHeight j)) = some e0 ∧
            e = .wrapf "failed to save randomness pair" e0)) ∧
        (∀ i, i < j → (es.pairAt valPk chainID (addUint64 startHeight i)).isSome = false ∧
          (es'.pairAt valPk chainID (addUint64 startHeight i)).isSome = true) ∧
        (∀ i, j ≤ i → i < num →
          (es'.pairAt valPk chainID (addUint64 startHeight i)).isSome
            = (es.pairAt valPk chainID (addUint64 startHeight i)).isSome) ∧
        (∀ key, (∀ i, i < j → key ≠ getRandPairKey valPk chainID (addUint64 startHeight i)) →
          kvGet key es'.rand = kvGet key es.rand) ∧
        es'.keys = es.keys) := by
  unfold CreateRandomnessPairListWithExistenceCheck at hfail
  cases hc : existenceCheck w es valPk chainID startHeight num 0 with
  | some e0 =>
    simp only [hc, Prod.mk.injEq, Except.error.injEq] at hfail
    obtain ⟨h1, h2⟩ := hfail
    subst h1
    obtain ⟨j, _, hj, hcause⟩ := existenceCheck_some w es valPk chainID startHeight num 0 e0 hc
    exact Or.inl ⟨h2.symm, j, by omega, hcause⟩
  | none =>
    simp only [hc, CreateRandomnessPairList] at hfail
    have hfree := existenceCheck_none w es valPk chainID startHeight num 0 hc
    have hpow : (2 : Nat) ^ 32 ≤ 2 ^ 64 := by norm_num
    obtain ⟨j, _, hj, hcause, hbefore, hafter⟩ :=
      createLoop_error w valPk chainID startHeight num 0 es es' [] e (by omega) hfree hfail
    have hes := congrArg Prod.snd hfail
    simp only at hes
    refine Or.inr ⟨j, by omega, hcause, ?_, ?_, ?_, ?_⟩
    · intro i hi
      refine ⟨?_, hbefore i (Nat.zero_le i) hi⟩
      simp [EOTSStore.pairAt, hfree i (Nat.zero_le i) (by omega)]
    · intro i h1 h2
      simp [EOTSStore.pairAt, hfree i (Nat.zero_le i) (by omega), hafter i h1 (by omega)]
    · intro key hkey
      by_cases hin : ∃ k, j ≤ k ∧ k < num ∧
          key = getRandPairKey valPk chainID (addUint64 startHeight k)
      · obtain ⟨k, h1, h2, h3⟩ := hin
        rw [h3, hafter k h1 (by omega), hfree k (Nat.zero_le k) (by omega)]
      · rw [← hes]
        apply createLoop_frame
        intro k h1 h2 h3
        by_cases hk : k < j
        · exact hkey k hk h3
        · exact hin ⟨k, by omega, by omega, h3⟩
    · rw [← hes]
      exact createLoop_keys w valPk chainID startHeight num 0 es []

/-- Witness of C2 as amended: the batch of two from height 100 whose second
write fails. -/
theorem failed_batch_effect_witness :
    ∃ j, j < 2 ∧
      (∀ i, i < j → (emptyStore.pairAt [2] [66] (addUint64 100 i)).isSome = false ∧
        ((CreateRandomnessPairListWithExistenceCheck secondWriteFails emptyStore [2] [66] 100
          2).2.pairAt [2] [66] (addUint64 100 i)).isSome = true) ∧
      (∀ i, j ≤ i → i < 2 →
        ((CreateRandomnessPairListWithExistenceCheck secondWriteFails emptyStore [2] [66] 100
          2).2.pairAt [2] [66] (addUint64 100 i)).isSome
          = (emptyStore.pairAt [2] [66] (addUint64 100 i)).isSome) := by
  rcases failed_batch_effect secondWriteFails emptyStore [2] [66] 100 2 (by norm_num)
    (.wrapf "failed to save randomness pair" (.fault "disk full"))
    (CreateRandomnessPairListWithExistenceCheck secondWriteFails emptyStore [2] [66] 100 2).2
    rfl with h | h
  · exact absurd h.1 (by decide)
  · obtain ⟨j, h1, _, h3, h4, _⟩ := h
    exact ⟨j, h1, h3, h4⟩

/-- C3: whether the call succeeds or fails, every fingerprint that had a stored
pair before it has the same pair after it (and the index is untouched). -/
theorem batch_never_overwrites (w : World) (es : EOTSStore) (valPk chainID : Bytes)
    (startHeight num : Nat) (pk' chain' : Bytes) (h' : Nat) (rp : SchnorrRandPair)
    (hstored : es.pairAt pk' chain' h' = some rp) :
    (CreateRandomnessPairListWithExistenceCheck w es valPk chainID startHeight num).2.pairAt
        pk' chain' h' = some rp ∧
      (CreateRandomnessPairListWithExistenceCheck w es valPk chainID startHeight num).2.keys
        = es.keys := by
  unfold CreateRandomnessPairListWithExistenceCheck
  cases hc : existenceCheck w es valPk chainID startHeight num 0 with
  | some e0 => exact ⟨hstored, rfl⟩
  | none =>
    have hfree := existenceCheck_none w es valPk chainID startHeight num 0 hc
    exact ⟨createLoop_keeps w valPk chainID startHeight num 0 es [] _ rp hfree hstored,
      createLoop_keys w valPk chainID startHeight num 0 es []⟩

/-- Witness of C3: a batch of two from height 100 over a store holding
height 102 keeps the pair of height 102. -/
theorem batch_never_overwrites_witness :
    (CreateRandomnessPairListWithExistenceCheck calmWorld oneStore [2] [66] 100 2).2.pairAt
        [2] [66] 102 = some { PubRand := beBytes 32 2002, SecRand := beBytes 32 1002 } ∧
      (CreateRandomnessPairListWithExistenceCheck calmWorld oneStore [2] [66] 100 2).2.keys
        = oneStore.keys :=
  batch_never_overwrites calmWorld oneStore [2] [66] 100 2 [2] [66] 102 _ rfl

/-- C5, counterexample: a batch of two from the largest `uint64` start height
succeeds and returns `[2000, 2001]`; the first nonce is stored at height
`2 ^ 64 - 1` and the second at height 0, so the nonces are not returned in
height order. -/
theorem height_order_counterexample :
    (CreateRandomnessPairListWithExistenceCheck calmWorld emptyStore [2] [66]
        18446744073709551615 2).1 = .ok [2000, 2001] ∧
      ((CreateRandomnessPairListWithExistenceCheck calmWorld emptyStore [2] [66]
        18446744073709551615 2).2.pairAt [2] [66] 18446744073709551615).map
          (fun rp => rp.PubRand) = some (beBytes 32 2000) ∧
      ((CreateRandomnessPairListWithExistenceCheck calmWorld emptyStore [2] [66]
        18446744073709551615 2).2.pairAt [2] [66] 0).map
          (fun rp => rp.PubRand) = some (beBytes 32 2001) ∧
      addUint64 18446744073709551615 0 = 18446744073709551615 ∧
      addUint64 18446744073709551615 1 = 0 ∧
      ¬ (addUint64 18446744073709551615 0 < addUint64 18446744073709551615 1) := by
  refine ⟨rfl, rfl, rfl, rfl, rfl, ?_⟩
  decide

/-- C5, amended: a successful call returns exactly `num` public nonces, and for
every `i < num` the height `startHeight + i mod 2 ^ 64` holds a pair whose
public part is the 32-byte encoding of the `i`-th returned nonce; when
`startHeight + num ≤ 2 ^ 64` that height is `startHeight + i` and the heights
ascend with `i`, so the nonces are returned in height order; with `num = 0` the
call succeeds with an empty list and the store as it was. -/
theorem batch_success_nonce_heights (w : World) (es : EOTSStore) (valPk chainID : Bytes)
    (startHeight num : Nat) (hnum : num < 2 ^ 32) (l : List Nat) (es' : EOTSStore)
    (hok : CreateRandomnessPairListWithExistenceCheck w es valPk chainID startHeight num
      = (.ok l, es')) :
    (l.length = num ∧
      ∀ i, i < num → ∃ rp x,
        es'.pairAt valPk chainID (addUint64 startHeight i) = some rp ∧
        l[i]? = some x ∧ rp.PubRand = beBytes 32 x ∧ rp.PubRand.length = 32) ∧
    (startHeight + num ≤ 2 ^ 64 →
      (∀ i, i < num → addUint64 startHeight i = startHeight + i) ∧
      (∀ i j, i < j → j < num → addUint64 startHeight i < addUint64 startHeight j)) ∧
    CreateRandomnessPairListWithExistenceCheck w es valPk chainID startHeight 0
      = (.ok [], es) := by
  refine ⟨?_, ?_, rfl⟩
  · unfold CreateRandomnessPairListWithExistenceCheck at hok
    cases hc : existenceCheck w es valPk chainID startHeight num 0 with
    | some e0 => simp [hc] at hok
    | none =>
      simp only [hc, CreateRandomnessPairList] at hok
      have hpow : (2 : Nat) ^ 32 ≤ 2 ^ 64 := by norm_num
      obtain ⟨prs, h1, h2, h3⟩ :=
        createLoop_ok w valPk chainID startHeight num 0 es es' [] l (by omega) hok
      simp only [List.nil_append] at h1
      subst h1
      refine ⟨h2, ?_⟩
      intro i hi
      obtain ⟨rp, x, h4, h5, h6⟩ := h3 i hi
      rw [Nat.zero_add] at h4
      exact ⟨rp, x, h4, h5, h6, by rw [h6, beBytes_length]⟩
  · intro hwrap
    have hadd : ∀ i, i < num → addUint64 startHeight i = startHeight + i := by
      intro i hi
      unfold addUint64
      exact Nat.mod_eq_of_lt (by omega)
    refine ⟨hadd, ?_⟩
    intro i j hij hj
    rw [hadd i (by omega), hadd j hj]
    omega

/-- Witness of C5 as amended: a batch of three from height 100 on an empty store
returns the three public nonces of the generator, stored at the heights 100,
101 and 102 in this order. -/
theorem batch_success_nonce_heights_witness :
    (([2000, 2001, 2002] : List Nat).length = 3 ∧
      ∀ i, i < 3 → ∃ rp x,
        (CreateRandomnessPairListWithExistenceCheck calmWorld emptyStore [2] [66] 100
          3).2.pairAt [2] [66] (addUint64 100 i) = some rp ∧
        ([2000, 2001, 2002] : List Nat)[i]? = some x ∧ rp.PubRand = beBytes 32 x ∧
        rp.PubRand.length = 32) ∧
    ((∀ i, i < 3 → addUint64 100 i = 100 + i) ∧
      (∀ i j, i < j → j < 3 → addUint64 100 i < addUint64 100 j)) ∧
    CreateRandomnessPairListWithExistenceCheck calmWorld emptyStore [2] [66] 100 0
      = (.ok [], emptyStore) :=
  have h := batch_success_nonce_heights calmWorld emptyStore [2] [66] 100 3 (by norm_num)
    [2000, 2001, 2002]
    (CreateRandomnessPairListWithExistenceCheck calmWorld emptyStore [2] [66] 100 3).2 rfl
  ⟨h.1, h.2.1 (by norm_num), h.2.2⟩

/-! ## Signing: the properties -/

/-- C4: without a stored pair for `(valPk, chainID, height)`, `SignEOTS` returns
no signature but the error of the randomness lookup, wrapped as "failed to get
private randomness"; the result is the same for every keyring and every
`pk → name` index, so it does not depend on a key existing for `valPk`. -/
theorem sign_requires_randomness (w : World) (lm : LocalEOTSManager)
    (valPk chainID msg : Bytes) (height : Nat)
    (hmissing : lm.es.pairAt valPk chainID height = none) :
    SignEOTS w lm valPk chainID msg height
        = (.error (.wrapf "failed to get private randomness"
            ((w.getFault (getRandPairKey valPk chainID height)).getD .notFound)), lm) ∧
      ∀ (kr' : Keyring) (keys' : List (Bytes × String)),
        (SignEOTS w { kr := kr', es := { rand := lm.es.rand, keys := keys' } }
            valPk chainID msg height).1
          = (SignEOTS w lm valPk chainID msg height).1 := by
  have hget : ∀ (kr' : Keyring) (keys' : List (Bytes × String)),
      (SignEOTS w { kr := kr', es := { rand := lm.es.rand, keys := keys' } }
          valPk chainID msg height).1
        = .error (.wrapf "failed to get private randomness"
            ((w.getFault (getRandPairKey valPk chainID height)).getD .notFound)) := by
    intro kr' keys'
    unfold EOTSStore.pairAt at hmissing
    cases hf : w.getFault (getRandPairKey valPk chainID height) with
    | some e => simp [SignEOTS, signEOTSArgs, getPrivRandomness, getRandPair, hf]
    | none => simp [SignEOTS, signEOTSArgs, getPrivRandomness, getRandPair, hf, hmissing]
  have hself := hget lm.kr lm.es.keys
  refine ⟨?_, fun kr' keys' => by rw [hget kr' keys', ← hself]⟩
  have hlm : (SignEOTS w lm valPk chainID msg height).2 = lm := by
    unfold SignEOTS
    cases signEOTSArgs w lm valPk chainID height with
    | error e => rfl
    | ok a => rfl
  exact Prod.ext hself hlm

/-- Witness of C4: height 99 was not committed for alice, and signing at 99
fails with the missing-randomness error although her key exists. -/
theorem sign_requires_randomness_witness :
    SignEOTS calmWorld aliceReady alicePk [66] [1, 2, 3] 99
        = (.error (.wrapf "failed to get private randomness" .notFound), aliceReady) ∧
      ∀ (kr' : Keyring) (keys' : List (Bytes × String)),
        (SignEOTS calmWorld { kr := kr', es := { rand := aliceReady.es.rand, keys := keys' } }
            alicePk [66] [1, 2, 3] 99).1
          = (SignEOTS calmWorld aliceReady alicePk [66] [1, 2, 3] 99).1 :=
  sign_requires_randomness calmWorld aliceReady alicePk [66] [1, 2, 3] 99 rfl

/-- `SignEOTS` returns the manager it was given. -/
theorem SignEOTS_frame (w : World) (lm : LocalEOTSManager) (valPk chainID msg : Bytes)
    (height : Nat) : (SignEOTS w lm valPk chainID msg height).2 = lm := by
  unfold SignEOTS
  cases signEOTSArgs w lm valPk chainID height with
  | error e => rfl
  | ok a => rfl

/-- With a stored pair, `SignEOTS` either stops before `eots.Sign` or calls it
with the scalar of the stored `SecRand` as nonce. -/
theorem signEOTSArgs_nonce (w : World) (lm : LocalEOTSManager) (valPk chainID msg : Bytes)
    (height : Nat) (rp : SchnorrRandPair) (hstored : lm.es.pairAt valPk chainID height = some rp) :
    (∃ e, signEOTSArgs w lm valPk chainID height = .error e ∧
        (SignEOTS w lm valPk chainID msg height).1 = .error e) ∨
      (∃ sk, signEOTSArgs w lm valPk chainID height = .ok (sk, SetByteSlice rp.SecRand) ∧
        (SignEOTS w lm valPk chainID msg height).1
          = eots.Sign w sk (SetByteSlice rp.SecRand) msg) := by
  unfold EOTSStore.pairAt at hstored
  unfold SignEOTS signEOTSArgs getPrivRandomness getRandPair
  cases hf : w.getFault (getRandPairKey valPk chainID height) with
  | some e => exact Or.inl ⟨_, rfl, rfl⟩
  | none =>
    simp only [hstored]
    by_cases hlen : rp.SecRand.length = SchnorrRandomnessLength
    · simp only [hlen, ne_eq, not_true_eq_false, if_false]
      cases hk : getEOTSPrivKey w lm valPk with
      | error e => exact Or.inl ⟨_, rfl, rfl⟩
      | ok sk => exact Or.inr ⟨sk, rfl, rfl⟩
    · simp only [ne_eq, hlen, not_false_eq_true, if_true]
      exact Or.inl ⟨_, rfl, rfl⟩

/-- C6: `SignEOTS` leaves the manager (randomness store, index and keyring) as
it was, so after two successive calls at a fingerprint with a stored pair the
pair is still the stored one, and each of the two calls that reaches
`eots.Sign` hands it the scalar of the stored `SecRand` as secret nonce. -/
theorem sign_reuses_stored_nonce (w1 w2 : World) (lm : LocalEOTSManager)
    (valPk chainID m1 m2 : Bytes) (height : Nat) (rp : SchnorrRandPair)
    (hstored : lm.es.pairAt valPk chainID height = some rp) :
    (SignEOTS w1 lm valPk chainID m1 height).2 = lm ∧
      (SignEOTS w2 (SignEOTS w1 lm valPk chainID m1 height).2 valPk chainID m2 height).2 = lm ∧
      (SignEOTS w2 (SignEOTS w1 lm valPk chainID m1 height).2 valPk chainID m2
        height).2.es.pairAt valPk chainID height = some rp ∧
      ((∃ e, signEOTSArgs w1 lm valPk chainID height = .error e ∧
          (SignEOTS w1 lm valPk chainID m1 height).1 = .error e) ∨
        (∃ sk, signEOTSArgs w1 lm valPk chainID height = .ok (sk, SetByteSlice rp.SecRand) ∧
          (SignEOTS w1 lm valPk chainID m1 height).1
            = eots.Sign w1 sk (SetByteSlice rp.SecRand) m1)) ∧
      ((∃ e, signEOTSArgs w2 (SignEOTS w1 lm valPk chainID m1 height).2 valPk chainID height
            = .error e ∧
          (SignEOTS w2 (SignEOTS w1 lm valPk chainID m1 height).2 valPk chainID m2 height).1
            = .error e) ∨
        (∃ sk, signEOTSArgs w2 (SignEOTS w1 lm valPk chainID m1 height).2 valPk chainID height
            = .ok (sk, SetByteSlice rp.SecRand) ∧
          (SignEOTS w2 (SignEOTS w1 lm valPk chainID m1 height).2 valPk chainID m2 height).1
            = eots.Sign w2 sk (SetByteSlice rp.SecRand) m2)) := by
  have h1 := SignEOTS_frame w1 lm valPk chainID m1 height
  rw [h1]
  have h2 := SignEOTS_frame w2 lm valPk chainID m2 height
  rw [h2]
  exact ⟨rfl, rfl, hstored, signEOTSArgs_nonce w1 lm valPk chainID m1 height rp hstored,
    signEOTSArgs_nonce w2 lm valPk chainID m2 height rp hstored⟩

/-- Witness of C6: alice signs two messages at the committed height 100; both
calls reach `eots.Sign` with the stored nonce 1000, and the pair stays. -/
theorem sign_reuses_stored_nonce_witness :
    (SignEOTS calmWorld (SignEOTS calmWorld aliceReady alicePk [66] [1] 100).2 alicePk [66] [2]
        100).2.es.pairAt alicePk [66] 100
        = some { PubRand := beBytes 32 2000, SecRand := beBytes 32 1000 } ∧
      signEOTSArgs calmWorld aliceReady alicePk [66] 100 = .ok (9, 1000) ∧
      signEOTSArgs calmWorld (SignEOTS calmWorld aliceReady alicePk [66] [1] 100).2 alicePk [66]
        100 = .ok (9, 1000) :=
  ⟨(sign_reuses_stored_nonce calmWorld calmWorld aliceReady alicePk [66] [1] [2] 100
      { PubRand := beBytes 32 2000, SecRand := beBytes 32 1000 } rfl).2.2.1, rfl, rfl⟩

/-! ## Modular arithmetic and the primality of the group order -/

/-- The loop invariant of square-and-multiply. -/
theorem powModAux_spec (m : Nat) (fuel a e acc : Nat) (h : e ≤ fuel) :
    powModAux m fuel a e acc % m = acc * a ^ e % m := by
  induction fuel generalizing a e acc with
  | zero =>
    have : e = 0 := by omega
    subst this
    simp [powModAux]
  | succ n ih =>
    unfold powModAux
    by_cases he : e = 0
    · subst he; simp
    · simp only [he, if_false]
      rw [ih _ _ _ (by omega)]
      have hsplit : a ^ e = (a * a) ^ (e / 2) * a ^ (e % 2) := by
        rw [← pow_two, ← pow_mul, ← pow_add, Nat.div_add_mod]
      by_cases hodd : e % 2 = 1
      · simp only [hodd, if_true]
        rw [hsplit, hodd, pow_one]
        conv_lhs => rw [Nat.mul_mod, Nat.mod_mod, Nat.pow_mod, Nat.mod_mod, ← Nat.pow_mod, ← Nat.mul_mod]
        ring_nf
      · have h0 : e % 2 = 0 := by omega
        simp only [hodd, if_false]
        rw [hsplit, h0, pow_zero, mul_one]
        conv_lhs => rw [Nat.mul_mod, Nat.pow_mod, Nat.mod_mod, ← Nat.pow_mod, ← Nat.mul_mod]

theorem powMod_eq (a e m : Nat) : powMod a e m = a ^ e % m := by
  unfold powMod
  rw [powModAux_spec m e a e 1 (le_refl e), one_mul]

/-- Lucas primality test from a certificate: `fs` lists the prime factors of
`p - 1` with multiplicity and `a` has order `p - 1` modulo `p`. -/
theorem prime_of_certificate (p a : Nat) (fs : List Nat) (hp : 1 < p)
    (hprod : fs.prod = p - 1) (hfs : ∀ q ∈ fs, Nat.Prime q)
    (hone : powMod a (p - 1) p = 1)
    (hne : ∀ q ∈ fs, powMod a ((p - 1) / q) p ≠ 1) : Nat.Prime p := by
  have h1 : (1 : Nat) % p = 1 := Nat.mod_eq_of_lt hp
  apply lucas_primality p (a : ZMod p)
  · rw [powMod_eq] at hone
    have : ((a ^ (p - 1) : Nat) : ZMod p) = ((1 : Nat) : ZMod p) := by
      rw [ZMod.natCast_eq_natCast_iff']
      rw [hone, h1]
    simpa using this
  · intro q hq hdvd hpow
    rw [← hprod] at hdvd
    obtain ⟨f, hf, hqf⟩ := (Prime.dvd_prod_iff (Nat.prime_iff.mp hq)).mp hdvd
    have hfq : q = f := (Nat.prime_dvd_prime_iff_eq hq (hfs f hf)).mp hqf
    subst hfq
    apply hne q hf
    rw [powMod_eq]
    have : ((a ^ ((p - 1) / q) : Nat) : ZMod p) = ((1 : Nat) : ZMod p) := by
      simpa using hpow
    rw [ZMod.natCast_eq_natCast_iff'] at this
    rw [this, h1]


/-- Two signatures `k + e·sk` with the same nonce and different challenges give
back the key, modulo a prime. -/
theorem extract_algebra (p : Nat) (hp : p.Prime) (k sk e1 e2 : Nat) (hsk : sk < p)
    (he1 : e1 < p) (he2 : e2 < p) (hne : e1 ≠ e2) :
    (((k + e1 * sk) % p + p - (k + e2 * sk) % p) % p
        * powMod ((e1 + p - e2) % p) (p - 2) p) % p = sk := by
  haveI : Fact p.Prime := ⟨hp⟩
  have hp2 : 2 ≤ p := hp.two_le
  have hd : ((e1 : ZMod p) - (e2 : ZMod p)) ≠ 0 := by
    intro h
    have h3 : (e1 : ZMod p) = (e2 : ZMod p) := sub_eq_zero.mp h
    rw [ZMod.natCast_eq_natCast_iff', Nat.mod_eq_of_lt he1, Nat.mod_eq_of_lt he2] at h3
    exact hne h3
  have hle1 : (k + e2 * sk) % p ≤ (k + e1 * sk) % p + p :=
    le_trans (le_of_lt (Nat.mod_lt _ (by omega))) (Nat.le_add_left _ _)
  have hle2 : e2 ≤ e1 + p := by omega
  have hcast : ((((k + e1 * sk) % p + p - (k + e2 * sk) % p) % p
        * powMod ((e1 + p - e2) % p) (p - 2) p : Nat) : ZMod p) = (sk : ZMod p) := by
    rw [powMod_eq]
    push_cast [Nat.cast_sub hle1, Nat.cast_sub hle2, ZMod.natCast_mod]
    simp only [ZMod.natCast_self, add_zero]
    have hinv : ((e1 : ZMod p) - e2) ^ (p - 2) * ((e1 : ZMod p) - e2) = 1 := by
      rw [← pow_succ]
      have : p - 2 + 1 = p - 1 := by omega
      rw [this]
      exact ZMod.pow_card_sub_one_eq_one hd
    calc ((k : ZMod p) + e1 * sk - (k + e2 * sk)) * ((e1 : ZMod p) - e2) ^ (p - 2)
        = sk * (((e1 : ZMod p) - e2) ^ (p - 2) * ((e1 : ZMod p) - e2)) := by ring
      _ = sk := by rw [hinv, mul_one]
  rw [ZMod.natCast_eq_natCast_iff', Nat.mod_eq_of_lt hsk] at hcast
  exact hcast

set_option maxRecDepth 100000 in
theorem prime_44706919 : Nat.Prime 44706919 := by
  apply prime_of_certificate 44706919 6
    [2, 3, 797, 9349] (by norm_num) (by rfl)
  · intro q hq
    simp only [List.mem_cons, List.mem_singleton, List.not_mem_nil, or_false] at hq
    rcases hq with rfl | rfl | rfl | rfl <;> first | norm_num
  · decide
  · decide

set_option maxRecDepth 100000 in
theorem prime_545358713 : Nat.Prime 545358713 := by
  apply prime_of_certificate 545358713 5
    [2, 2, 2, 41, 59, 28181] (by norm_num) (by rfl)
  · intro q hq
    simp only [List.mem_cons, List.mem_singleton, List.not_mem_nil, or_false] at hq
    rcases hq with rfl | rfl | rfl | rfl | rfl | rfl <;> first | norm_num
  · decide
  · decide

set_option maxRecDepth 100000 in
theorem prime_297159362677 : Nat.Prime 297159362677 := by
  apply prime_of_certificate 297159362677 2
    [2, 2, 3, 3, 11, 461, 1627771] (by norm_num) (by rfl)
  · intro q hq
    simp only [List.mem_cons, List.mem_singleton, List.not_mem_nil, or_false] at hq
    rcases hq with rfl | rfl | rfl | rfl | rfl | rfl | rfl <;> first | norm_num
  · decide
  · decide

set_option maxRecDepth 100000 in
theorem prime_107361793816595537 : Nat.Prime 107361793816595537 := by
  apply prime_of_certificate 107361793816595537 3
    [2, 2, 2, 2, 16699, 85831, 4681609] (by norm_num) (by rfl)
  · intro q hq
    simp only [List.mem_cons, List.mem_singleton, List.not_mem_nil, or_false] at hq
    rcases hq with rfl | rfl | rfl | rfl | rfl | rfl | rfl <;> first | norm_num
  · decide
  · decide

set_option maxRecDepth 100000 in
theorem prime_174723607534414371449 : Nat.Prime 174723607534414371449 := by
  apply prime_of_certificate 174723607534414371449 3
    [2, 2, 2, 17, 59, 4051, 120233, 44706919] (by norm_num) (by rfl)
  · intro q hq
    simp only [List.mem_cons, List.mem_singleton, List.not_mem_nil, or_false] at hq
    rcases hq with rfl | rfl | rfl | rfl | rfl | rfl | rfl | rfl <;> first | exact prime_44706919 | norm_num
  · decide
  · decide

set_option maxRecDepth 100000 in
theorem prime_29047611873442575647497758179 : Nat.Prime 29047611873442575647497758179 := by
  apply prime_of_certificate 29047611873442575647497758179 2
    [2, 293, 305873, 545358713, 297159362677] (by norm_num) (by rfl)
  · intro q hq
    simp only [List.mem_cons, List.mem_singleton, List.not_mem_nil, or_false] at hq
    rcases hq with rfl | rfl | rfl | rfl | rfl <;> first | exact prime_545358713 | exact prime_297159362677 | norm_num
  · decide
  · decide

set_option maxRecDepth 100000 in
theorem prime_341948486974166000522343609283189 : Nat.Prime 341948486974166000522343609283189 := by
  apply prime_of_certificate 341948486974166000522343609283189 2
    [2, 2, 3, 3, 3, 109, 29047611873442575647497758179] (by norm_num) (by rfl)
  · intro q hq
    simp only [List.mem_cons, List.mem_singleton, List.not_mem_nil, or_false] at hq
    rcases hq with rfl | rfl | rfl | rfl | rfl | rfl | rfl <;> first | exact prime_29047611873442575647497758179 | norm_num
  · decide
  · decide

set_option maxRecDepth 100000 in
theorem secp256k1N_prime_aux : Nat.Prime 115792089237316195423570985008687907852837564279074904382605163141518161494337 := by
  apply prime_of_certificate 115792089237316195423570985008687907852837564279074904382605163141518161494337 7
    [2, 2, 2, 2, 2, 2, 3, 149, 631, 107361793816595537, 174723607534414371449, 341948486974166000522343609283189] (by norm_num) (by rfl)
  · intro q hq
    simp only [List.mem_cons, List.mem_singleton, List.not_mem_nil, or_false] at hq
    rcases hq with rfl | rfl | rfl | rfl | rfl | rfl | rfl | rfl | rfl | rfl | rfl | rfl <;> first | exact prime_107361793816595537 | exact prime_174723607534414371449 | exact prime_341948486974166000522343609283189 | norm_num
  · decide
  · decide

/-- The order of the secp256k1 group is prime. -/
theorem secp256k1N_prime : Nat.Prime secp256k1N := secp256k1N_prime_aux

/-! ## Key extraction -/

theorem SetByteSlice_lt (b : Bytes) : SetByteSlice b < secp256k1N :=
  Nat.mod_lt _ (by norm_num [secp256k1N])

theorem challenge_lt (w : World) (sk k : Nat) (msg : Bytes) :
    challenge w sk k msg < secp256k1N :=
  Nat.mod_lt _ (by norm_num [secp256k1N])

theorem getEOTSPrivKey_lt (w : World) (lm : LocalEOTSManager) (valPk : Bytes) (sk : Nat)
    (h : getEOTSPrivKey w lm valPk = .ok sk) : sk < secp256k1N := by
  unfold getEOTSPrivKey at h
  cases hn : getValidatorKeyName w lm.es valPk with
  | error e => simp [hn] at h
  | ok keyName =>
    simp only [hn] at h
    cases hk : lm.kr.Key keyName with
    | error e => simp [hk] at h
    | ok record =>
      simp only [hk, privKeyOfRecord] at h
      cases hpk : record.PrivKey with
      | other t => simp [hpk] at h
      | secp256k1 key =>
        simp only [hpk, Except.ok.injEq] at h
        rw [← h]
        exact SetByteSlice_lt key

/-- A successful `SignEOTS` at a fingerprint with a stored pair returns
`k + e·sk mod n` for the scalar `k` of the stored `SecRand` and the key `sk`. -/
theorem SignEOTS_value (w : World) (lm : LocalEOTSManager) (valPk chainID msg : Bytes)
    (height : Nat) (rp : SchnorrRandPair) (sk s : Nat)
    (hstored : lm.es.pairAt valPk chainID height = some rp)
    (hkey : getEOTSPrivKey w lm valPk = .ok sk)
    (h : (SignEOTS w lm valPk chainID msg height).1 = .ok s) :
    s = (SetByteSlice rp.SecRand + challenge w sk (SetByteSlice rp.SecRand) msg * sk)
      % secp256k1N := by
  rcases signEOTSArgs_nonce w lm valPk chainID msg height rp hstored with
    ⟨e, _, he⟩ | ⟨sk', hargs, hres⟩
  · rw [he] at h
    exact Except.noConfusion h
  · have hsk : sk' = sk := by
      unfold signEOTSArgs at hargs
      cases hr : getPrivRandomness w lm valPk chainID height with
      | error e => simp [hr] at hargs
      | ok privRand =>
        simp only [hr, hkey, Except.ok.injEq, Prod.mk.injEq] at hargs
        exact hargs.1.symm
    subst hsk
    rw [hres] at h
    unfold eots.Sign at h
    by_cases h0 : sk' = 0
    · simp [h0] at h
    · by_cases hk0 : SetByteSlice rp.SecRand = 0
      · simp [h0, hk0] at h
      · simp only [h0, hk0, if_false, Except.ok.injEq] at h
        exact h.symm

/-- C7: for a fingerprint with a committed pair and a validator key `sk`, two
successive `SignEOTS` calls on messages whose challenges `e1`, `e2` differ
return `s1`, `s2` with `(s1 − s2) · (e1 − e2)⁻¹ mod n = sk`, where `n` is the
order of the secp256k1 group (differing challenges imply differing messages). -/
theorem key_extractable (w : World) (lm : LocalEOTSManager) (valPk chainID m1 m2 : Bytes)
    (height : Nat) (rp : SchnorrRandPair) (sk s1 s2 : Nat)
    (hstored : lm.es.pairAt valPk chainID height = some rp)
    (hkey : getEOTSPrivKey w lm valPk = .ok sk)
    (h1 : (SignEOTS w lm valPk chainID m1 height).1 = .ok s1)
    (h2 : (SignEOTS w (SignEOTS w lm valPk chainID m1 height).2 valPk chainID m2 height).1
      = .ok s2)
    (hne : challenge w sk (SetByteSlice rp.SecRand) m1
      ≠ challenge w sk (SetByteSlice rp.SecRand) m2) :
    ((s1 + secp256k1N - s2) % secp256k1N
        * modInverse ((challenge w sk (SetByteSlice rp.SecRand) m1 + secp256k1N
            - challenge w sk (SetByteSlice rp.SecRand) m2) % secp256k1N)) % secp256k1N
      = sk := by
  rw [SignEOTS_frame] at h2
  rw [SignEOTS_value w lm valPk chainID m1 height rp sk s1 hstored hkey h1,
    SignEOTS_value w lm valPk chainID m2 height rp sk s2 hstored hkey h2]
  exact extract_algebra secp256k1N secp256k1N_prime (SetByteSlice rp.SecRand) sk _ _
    (getEOTSPrivKey_lt w lm valPk sk hkey) (challenge_lt _ _ _ _) (challenge_lt _ _ _ _) hne

set_option maxRecDepth 100000 in
/-- Witness of C7: alice signs the messages `[1]` and `[2]` at height 100; her
key, the scalar 9, comes back from the two signatures. -/
theorem key_extractable_witness :
    ∃ s1 s2,
      (SignEOTS calmWorld aliceReady alicePk [66] [1] 100).1 = .ok s1 ∧
      (SignEOTS calmWorld (SignEOTS calmWorld aliceReady alicePk [66] [1] 100).2 alicePk [66]
        [2] 100).1 = .ok s2 ∧
      ((s1 + secp256k1N - s2) % secp256k1N
          * modInverse ((challenge calmWorld 9 1000 [1] + secp256k1N
              - challenge calmWorld 9 1000 [2]) % secp256k1N)) % secp256k1N = 9 :=
  ⟨_, _, rfl, rfl,
    key_extractable calmWorld aliceReady alicePk [66] [1] [2] 100
      { PubRand := beBytes 32 2000, SecRand := beBytes 32 1000 } 9 _ _ rfl rfl rfl rfl
      (by decide)⟩

/-! ## Validator creation: the properties -/

/-- What a successful `CreateValidator` has done: every step succeeded, the
derived record is in the keyring under `name`, and the index maps the returned
key to `name`. -/
theorem CreateValidator_ok (w : World) (lm lm' : LocalEOTSManager) (name passPhrase : String)
    (pk : Bytes) (h : CreateValidator w lm name passPhrase = (.ok pk, lm')) :
    keyExists lm name = false ∧
      ∃ entropySeed mnemonic record key point,
        w.NewEntropy = .ok entropySeed ∧ w.NewMnemonic entropySeed = .ok mnemonic ∧
        w.newAccount name mnemonic passPhrase = .ok record ∧
        record.GetPubKey = .ok (.secp256k1 key) ∧ w.ParsePubKey key = .ok point ∧
        pk = beBytes 32 point.1 ∧
        lm'.kr = kvPut name record lm.kr ∧
        lm'.es.keys = kvPut pk name lm.es.keys ∧ lm'.es.rand = lm.es.rand := by
  unfold CreateValidator at h
  cases hex : keyExists lm name with
  | true => simp [hex] at h
  | false =>
    simp only [hex, Bool.false_eq_true, if_false] at h
    cases ha : w.algoFault with
    | some e => simp [ha] at h
    | none =>
      simp only [ha] at h
      cases hen : w.NewEntropy with
      | error e => simp [hen] at h
      | ok entropySeed =>
        simp only [hen] at h
        cases hm : w.NewMnemonic entropySeed with
        | error e => simp [hm] at h
        | ok mnemonic =>
          simp only [hm, Keyring.NewAccount] at h
          cases hn : w.newAccount name mnemonic passPhrase with
          | error e => simp [hn] at h
          | ok record =>
            simp only [hn] at h
            cases hp : record.GetPubKey with
            | error e => simp [hp] at h
            | ok pub =>
              cases pub with
              | other t => simp [hp] at h
              | secp256k1 key =>
                simp only [hp] at h
                cases hpp : w.ParsePubKey key with
                | error e => simp [hpp] at h
                | ok point =>
                  simp only [hpp, saveValidatorKey] at h
                  cases hs : w.namePutFault (beBytes 32 point.1) with
                  | some e => simp [hs] at h
                  | none =>
                    simp only [hs, Prod.mk.injEq, Except.ok.injEq] at h
                    obtain ⟨h1, h2⟩ := h
                    subst h1
                    subst h2
                    exact ⟨rfl, entropySeed, mnemonic, record, key, point, rfl, hm, hn, hp,
                      hpp, rfl, rfl, rfl, rfl⟩

/-- C8: if a key named `name` is in the keyring, in particular if the manager
is the result of a successful `CreateValidator` with that name, then
`CreateValidator` returns `ErrValidatorAlreadyExisted` without a public key and
leaves the keyring and the `pk → name` index as they were. -/
theorem existing_name_rejected (w : World) (lm : LocalEOTSManager) (name passPhrase : String)
    (hexists : (∃ record, kvGet name lm.kr = some record) ∨
      (∃ w0 lm0 passPhrase0 pk0, CreateValidator w0 lm0 name passPhrase0 = (.ok pk0, lm))) :
    CreateValidator w lm name passPhrase = (.error .ErrValidatorAlreadyExisted, lm) := by
  have hrec : ∃ record, kvGet name lm.kr = some record := by
    rcases hexists with h | ⟨w0, lm0, passPhrase0, pk0, h⟩
    · exact h
    · obtain ⟨_, _, _, record, _, _, _, _, _, _, _, _, hkr, _, _⟩ :=
        CreateValidator_ok w0 lm0 lm name passPhrase0 pk0 h
      exact ⟨record, by rw [hkr, kvGet_kvPut_self]⟩
  obtain ⟨record, hrec⟩ := hrec
  simp [CreateValidator, keyExists, Keyring.Key, hrec]

/-- Witness of C8: a second `CreateValidator "alice"` after the first one, with
another passphrase. -/
theorem existing_name_rejected_witness :
    CreateValidator calmWorld aliceManager "alice" "pw2"
      = (.error .ErrValidatorAlreadyExisted, aliceManager) :=
  existing_name_rejected calmWorld aliceManager "alice" "pw2"
    (Or.inr ⟨calmWorld, freshManager, "pw", alicePk, rfl⟩)

/-- C9: after a successful `CreateValidator name` returning `pk`, and when the
read of the index does not fail, `GetValidatorKeyName pk` returns `name`, the
keyring holds under `name` the record derived by this call, and
`getEOTSPrivKey pk` is the private key of that record. -/
theorem created_key_resolves (w w' : World) (lm lm' : LocalEOTSManager)
    (name passPhrase : String) (pk : Bytes)
    (hok : CreateValidator w lm name passPhrase = (.ok pk, lm'))
    (hread : w'.nameGetFault pk = none) :
    GetValidatorKeyName w' lm' pk = .ok name ∧
      ∃ mnemonic record, w.newAccount name mnemonic passPhrase = .ok record ∧
        lm'.kr.Key name = .ok record ∧
        getEOTSPrivKey w' lm' pk = privKeyOfRecord record := by
  obtain ⟨_, _, mnemonic, record, _, _, _, _, hn, _, _, _, hkr, hkeys, _⟩ :=
    CreateValidator_ok w lm lm' name passPhrase pk hok
  have hname : getValidatorKeyName w' lm'.es pk = .ok name := by
    simp [getValidatorKeyName, hread, hkeys, kvGet_kvPut_self]
  have hkey : lm'.kr.Key name = .ok record := by
    simp [Keyring.Key, hkr, kvGet_kvPut_self]
  refine ⟨hname, mnemonic, record, hn, hkey, ?_⟩
  simp [getEOTSPrivKey, hname, hkey]

/-- Witness of C9: alice's key resolves to the record derived for her, whose
private key bytes `[9]` give the scalar 9. -/
theorem created_key_resolves_witness :
    GetValidatorKeyName calmWorld aliceManager alicePk = .ok "alice" ∧
      ∃ mnemonic record, calmWorld.newAccount "alice" mnemonic "pw" = .ok record ∧
        aliceManager.kr.Key "alice" = .ok record ∧
        getEOTSPrivKey calmWorld aliceManager alicePk = privKeyOfRecord record :=
  created_key_resolves calmWorld calmWorld freshManager aliceManager "alice" "pw" alicePk rfl rfl

/-! ## The client constructor: the property -/

/-- C10: the constructor dials first; when the dial succeeds it issues exactly
one `Ping`, after the dial, and a failed `Ping` makes it return no client and
the `Ping` error wrapped as "the EOTS manager server is not responding"; when
the dial fails it returns the wrapped dial error without any `Ping`; a client is
returned only when both the dial and the `Ping` succeeded. -/
theorem constructor_pings_once (net : Network) (remoteAddr : String) :
    ((NewEOTSManagerGRpcClient net remoteAddr).2.count .Ping ≤ 1) ∧
      (net.Dial remoteAddr = none →
        (NewEOTSManagerGRpcClient net remoteAddr).2 = [.Dial remoteAddr, .Ping]) ∧
      (∀ e, net.Dial remoteAddr = some e →
        NewEOTSManagerGRpcClient net remoteAddr
          = (.error (.wrapf ("failed to build gRPC connection to " ++ remoteAddr) e),
              [.Dial remoteAddr])) ∧
      (∀ e, net.Dial remoteAddr = none → net.Ping remoteAddr = some e →
        (NewEOTSManagerGRpcClient net remoteAddr).1
          = .error (.wrapf "the EOTS manager server is not responding" e)) ∧
      (∀ c, (NewEOTSManagerGRpcClient net remoteAddr).1 = .ok c →
        net.Dial remoteAddr = none ∧ net.Ping remoteAddr = none ∧ c.conn = remoteAddr) := by
  unfold NewEOTSManagerGRpcClient EOTSManagerGRpcClient.Ping
  cases hd : net.Dial remoteAddr with
  | some e0 => simp [List.count_cons]
  | none =>
    cases hp : net.Ping remoteAddr with
    | some e1 => simp [List.count_cons]
    | none =>
      simp only [List.count_cons, Prod.mk.injEq, Except.ok.injEq]
      refine ⟨by simp, by simp, by simp, by simp, ?_⟩
      intro c hc
      exact ⟨trivial, trivial, by rw [← hc]⟩

/-- Witness of C10: on a network where the dial succeeds and no server answers,
the constructor issues the dial and one `Ping` and returns the wrapped `Ping`
error; on a live network it returns the client after the same two calls. -/
theorem constructor_pings_once_witness :
    NewEOTSManagerGRpcClient deafNetwork "127.0.0.1:15813"
        = (.error (.wrapf "the EOTS manager server is not responding"
            (.fault "connection refused")), [.Dial "127.0.0.1:15813", .Ping]) ∧
      NewEOTSManagerGRpcClient liveNetwork "127.0.0.1:15813"
        = (.ok { conn := "127.0.0.1:15813" }, [.Dial "127.0.0.1:15813", .Ping]) ∧
      (NewEOTSManagerGRpcClient brokenNetwork "127.0.0.1:15813").2
        = [.Dial "127.0.0.1:15813"] :=
  ⟨Prod.ext ((constructor_pings_once deafNetwork "127.0.0.1:15813").2.2.2.1 _ rfl rfl)
      ((constructor_pings_once deafNetwork "127.0.0.1:15813").2.1 rfl),
    rfl, rfl⟩

/-! ## The client operations: the properties -/

/-- C11: each of `Ping`, `CreateKey`, `CreateMasterRandPair`, `KeyRecord`,
`SignEOTS` and `SignSchnorrSig` issues exactly one call, the call of the stub of
the same name with the request built from its arguments, and when that call
returns the error `e` the operation returns `e` itself, without a result. -/
theorem client_calls_stub_once (net : Network) (stub : Stub) (c : EOTSManagerGRpcClient)
    (name passphrase hdPath : String) (uid chainID msg : Bytes) (height : Nat) :
    ((EOTSManagerGRpcClient.Ping net c).2 = [.Ping] ∧
        ∀ e, net.Ping c.conn = some e → (EOTSManagerGRpcClient.Ping net c).1 = some e) ∧
      ((EOTSManagerGRpcClient.CreateKey stub c name passphrase hdPath).2
          = [.CreateKey name passphrase hdPath] ∧
        ∀ e, stub.CreateKey c.conn name passphrase hdPath = .error e →
          (EOTSManagerGRpcClient.CreateKey stub c name passphrase hdPath).1 = .error e) ∧
      ((EOTSManagerGRpcClient.CreateMasterRandPair stub c uid chainID passphrase).2
          = [.CreateMasterRandPair uid chainID passphrase] ∧
        ∀ e, stub.CreateMasterRandPair c.conn uid chainID passphrase = .error e →
          (EOTSManagerGRpcClient.CreateMasterRandPair stub c uid chainID passphrase).1
            = .error e) ∧
      ((EOTSManagerGRpcClient.KeyRecord stub c uid passphrase).2
          = [.KeyRecord uid passphrase] ∧
        ∀ e, stub.KeyRecord c.conn uid passphrase = .error e →
          (EOTSManagerGRpcClient.KeyRecord stub c uid passphrase).1 = .error e) ∧
      ((EOTSManagerGRpcClient.SignEOTS stub c uid chainID msg height passphrase).2
          = [.SignEOTS uid chainID msg height passphrase] ∧
        ∀ e, stub.SignEOTS c.conn uid chainID msg height passphrase = .error e →
          (EOTSManagerGRpcClient.SignEOTS stub c uid chainID msg height passphrase).1
            = .error e) ∧
      ((EOTSManagerGRpcClient.SignSchnorrSig stub c uid msg passphrase).2
          = [.SignSchnorrSig uid msg passphrase] ∧
        ∀ e, stub.SignSchnorrSig c.conn uid msg passphrase = .error e →
          (EOTSManagerGRpcClient.SignSchnorrSig stub c uid msg passphrase).1 = .error e) := by
  refine ⟨⟨?_, ?_⟩, ⟨?_, ?_⟩, ⟨?_, ?_⟩, ⟨?_, ?_⟩, ⟨?_, ?_⟩, ⟨?_, ?_⟩⟩
  · unfold EOTSManagerGRpcClient.Ping
    cases net.Ping c.conn <;> rfl
  · intro e he
    simp [EOTSManagerGRpcClient.Ping, he]
  · unfold EOTSManagerGRpcClient.CreateKey
    cases stub.CreateKey c.conn name passphrase hdPath <;> rfl
  · intro e he
    simp [EOTSManagerGRpcClient.CreateKey, he]
  · unfold EOTSManagerGRpcClient.CreateMasterRandPair
    cases stub.CreateMasterRandPair c.conn uid chainID passphrase <;> rfl
  · intro e he
    simp [EOTSManagerGRpcClient.CreateMasterRandPair, he]
  · unfold EOTSManagerGRpcClient.KeyRecord
    cases stub.KeyRecord c.conn uid passphrase <;> rfl
  · intro e he
    simp [EOTSManagerGRpcClient.KeyRecord, he]
  · unfold EOTSManagerGRpcClient.SignEOTS
    cases stub.SignEOTS c.conn uid chainID msg height passphrase <;> rfl
  · intro e he
    simp [EOTSManagerGRpcClient.SignEOTS, he]
  · unfold EOTSManagerGRpcClient.SignSchnorrSig
    cases stub.SignSchnorrSig c.conn uid msg passphrase with
    | error err => rfl
    | ok Sig =>
      simp only
      cases schnorr.ParseSignature Sig <;> rfl
  · intro e he
    simp [EOTSManagerGRpcClient.SignSchnorrSig, he]

/-- Witness of C11: against a server that is down, each of the six operations
returns the error of its single call. -/
theorem client_calls_stub_once_witness :
    EOTSManagerGRpcClient.Ping (pingFails (.fault "unavailable")) { conn := "eotsd:15813" }
        = (some (.fault "unavailable"), [.Ping]) ∧
      EOTSManagerGRpcClient.CreateKey downStub { conn := "eotsd:15813" } "alice" "pw" ""
        = (.error (.fault "unavailable"), [.CreateKey "alice" "pw" ""]) ∧
      EOTSManagerGRpcClient.CreateMasterRandPair downStub { conn := "eotsd:15813" } [2] [66] "pw"
        = (.error (.fault "unavailable"), [.CreateMasterRandPair [2] [66] "pw"]) ∧
      EOTSManagerGRpcClient.KeyRecord downStub { conn := "eotsd:15813" } [2] "pw"
        = (.error (.fault "unavailable"), [.KeyRecord [2] "pw"]) ∧
      EOTSManagerGRpcClient.SignEOTS downStub { conn := "eotsd:15813" } [2] [66] [1] 100 "pw"
        = (.error (.fault "unavailable"), [.SignEOTS [2] [66] [1] 100 "pw"]) ∧
      EOTSManagerGRpcClient.SignSchnorrSig downStub { conn := "eotsd:15813" } [2] [1] "pw"
        = (.error (.fault "unavailable"), [.SignSchnorrSig [2] [1] "pw"]) := by
  have h := client_calls_stub_once (pingFails (.fault "unavailable")) downStub
    { conn := "eotsd:15813" } "alice" "pw" "" [2] [66] [1] 100
  obtain ⟨⟨a1, a2⟩, ⟨b1, b2⟩, ⟨c1, c2⟩, ⟨d1, d2⟩, ⟨e1, e2⟩, ⟨f1, f2⟩⟩ := h
  exact ⟨Prod.ext (a2 _ rfl) a1, Prod.ext (b2 _ rfl) b1, Prod.ext (c2 _ rfl) c1,
    Prod.ext (d2 _ rfl) d1, Prod.ext (e2 _ rfl) e1, Prod.ext (f2 _ rfl) f1⟩

/-- C15: once the call of the stub has succeeded, `SignEOTS` returns the scalar
`SetByteSlice` of the `Sig` field and `KeyRecord` the record with the scalar
`SetByteSlice` of the `PrivateKey` field, whatever these bytes are (empty, of
another length than 32, or encoding a value not below the group order), while
`SignSchnorrSig` returns what `schnorr.ParseSignature` makes of its `Sig` field
and fails when that field is not 64 bytes long. -/
theorem only_schnorr_validates (stub : Stub) (c : EOTSManagerGRpcClient)
    (uid chainID msg : Bytes) (height : Nat) (passphrase : String)
    (Sig PrivateKey SchnorrSig : Bytes) (Name : String)
    (hsign : stub.SignEOTS c.conn uid chainID msg height passphrase = .ok Sig)
    (hrecord : stub.KeyRecord c.conn uid passphrase = .ok (Name, PrivateKey))
    (hschnorr : stub.SignSchnorrSig c.conn uid msg passphrase = .ok SchnorrSig) :
    (EOTSManagerGRpcClient.SignEOTS stub c uid chainID msg height passphrase).1
        = .ok (SetByteSlice Sig) ∧
      (EOTSManagerGRpcClient.KeyRecord stub c uid passphrase).1
        = .ok { Name := Name, PrivKey := SetByteSlice PrivateKey } ∧
      (EOTSManagerGRpcClient.SignSchnorrSig stub c uid msg passphrase).1
        = schnorr.ParseSignature SchnorrSig ∧
      (SchnorrSig.length ≠ 64 →
        ∃ e, (EOTSManagerGRpcClient.SignSchnorrSig stub c uid msg passphrase).1 = .error e) := by
  have h3 : (EOTSManagerGRpcClient.SignSchnorrSig stub c uid msg passphrase).1
      = schnorr.ParseSignature SchnorrSig := by
    unfold EOTSManagerGRpcClient.SignSchnorrSig
    simp only [hschnorr]
    cases schnorr.ParseSignature SchnorrSig <;> rfl
  refine ⟨by simp [EOTSManagerGRpcClient.SignEOTS, hsign],
    by simp [EOTSManagerGRpcClient.KeyRecord, hrecord], h3, ?_⟩
  intro hlen
  rw [h3]
  unfold schnorr.ParseSignature
  by_cases h1 : SchnorrSig.length < 64
  · exact ⟨.errorf "malformed signature: too short", by simp [h1]⟩
  · have h2 : SchnorrSig.length > 64 := by omega
    exact ⟨.errorf "malformed signature: too long", by simp [h1, h2]⟩

/-- Witness of C15: a server answering with an empty `Sig`, a 33-byte
`PrivateKey` of bytes `0xFF` and a 3-byte Schnorr signature; the first two
operations succeed and the third fails. -/
theorem only_schnorr_validates_witness :
    (EOTSManagerGRpcClient.SignEOTS oddStub { conn := "eotsd:15813" } [2] [66] [1] 100 "pw").1
        = .ok 0 ∧
      (EOTSManagerGRpcClient.KeyRecord oddStub { conn := "eotsd:15813" } [2] "pw").1
        = .ok { Name := "alice", PrivKey := SetByteSlice (List.replicate 33 255) } ∧
      (EOTSManagerGRpcClient.SignSchnorrSig oddStub { conn := "eotsd:15813" } [2] [1] "pw").1
        = .error (.errorf "malformed signature: too short") :=
  have h := only_schnorr_validates oddStub { conn := "eotsd:15813" } [2] [66] [1] 100 "pw"
    [] (List.replicate 33 255) [1, 2, 3] "alice" rfl rfl rfl
  ⟨h.1, h.2.1, h.2.2.1⟩

/-! ## The source of the nonces -/

/-- Two successful runs of the write loop whose worlds share the clock reading
and the generator return the same public nonces, whatever the stores, the
validators, the chains and the start heights are. -/
theorem createLoop_list_of_seed (w1 w2 : World) (hclock : w1.unixNano = w2.unixNano)
    (hgen : w1.randGen = w2.randGen) (pk1 ch1 pk2 ch2 : Bytes) (sh1 sh2 : Nat)
    (fuel i : Nat) (es1 es2 es1' es2' : EOTSStore) (prList l1 l2 : List Nat)
    (h1 : createLoop w1 pk1 ch1 sh1 fuel i es1 prList = (.ok l1, es1'))
    (h2 : createLoop w2 pk2 ch2 sh2 fuel i es2 prList = (.ok l2, es2')) : l1 = l2 := by
  induction fuel generalizing i es1 es2 prList with
  | zero =>
    simp only [createLoop, Prod.mk.injEq, Except.ok.injEq] at h1 h2
    rw [← h1.1, ← h2.1]
  | succ n ih =>
    simp only [createLoop] at h1 h2
    rw [← hclock, ← hgen] at h2
    cases hr : w1.randGen w1.unixNano i with
    | error e0 => simp [hr] at h1
    | ok pr =>
      obtain ⟨eotsSR, eotsPR⟩ := pr
      simp only [hr, NewSchnorrRandPair, beBytes_length, SchnorrRandomnessLength, ne_eq,
        not_true_eq_false, if_false, saveRandPair] at h1 h2
      cases hp1 : w1.putFault (getRandPairKey pk1 ch1 (addUint64 sh1 i)) with
      | some e0 => simp [hp1] at h1
      | none =>
        cases hp2 : w2.putFault (getRandPairKey pk2 ch2 (addUint64 sh2 i)) with
        | some e0 => simp [hp2] at h2
        | none =>
          simp only [hp1] at h1
          simp only [hp2] at h2
          exact ih (i + 1) _ _ _ h1 h2

/-- After a successful run of the write loop, the height of iteration `i + k`
holds the encodings of the `(i + k)`-th pair of the generator stream. -/
theorem createLoop_ok_pair (w : World) (valPk chainID : Bytes) (startHeight : Nat)
    (fuel i : Nat) (es es' : EOTSStore) (prList l : List Nat)
    (hbound : i + fuel ≤ 2 ^ 64)
    (h : createLoop w valPk chainID startHeight fuel i es prList = (.ok l, es')) :
    ∀ k, k < fuel → ∃ sr pr, w.randGen w.unixNano (i + k) = .ok (sr, pr) ∧
      kvGet (getRandPairKey valPk chainID (addUint64 startHeight (i + k))) es'.rand
        = some { PubRand := beBytes 32 pr, SecRand := beBytes 32 sr } := by
  induction fuel generalizing i es prList with
  | zero => intro k hk; omega
  | succ n ih =>
    simp only [createLoop] at h
    cases hr : w.randGen w.unixNano i with
    | error e0 => simp [hr] at h
    | ok pr =>
      obtain ⟨eotsSR, eotsPR⟩ := pr
      simp only [hr, NewSchnorrRandPair, beBytes_length, SchnorrRandomnessLength, ne_eq,
        not_true_eq_false, if_false, saveRandPair] at h
      cases hp : w.putFault (getRandPairKey valPk chainID (addUint64 startHeight i)) with
      | some e0 => simp [hp] at h
      | none =>
        simp only [hp] at h
        intro k hk
        cases k with
        | zero =>
          have hes := congrArg Prod.snd h
          simp only at hes
          refine ⟨eotsSR, eotsPR, by rw [Nat.add_zero, hr], ?_⟩
          rw [Nat.add_zero, ← hes, createLoop_frame w valPk chainID startHeight n (i + 1) _ _ _
            (fun m h5 h6 =>
              key_ne_of_index_ne valPk chainID startHeight i m (by omega) (by omega) (by omega))]
          simp [kvGet_kvPut_self]
        | succ m =>
          obtain ⟨sr, pr, h4, h5⟩ := ih (i + 1) _ _ (by omega) h m (by omega)
          have hidx : i + (m + 1) = i + 1 + m := by omega
          rw [hidx]
          exact ⟨sr, pr, h4, h5⟩

/-- Two successful calls of `CreateRandomnessPairList` that read the same clock
value return the same public nonces and store the same pairs, height by height:
the batch is a function of the clock reading and of `num`. -/
theorem batch_of_clock (w1 w2 : World) (hclock : w1.unixNano = w2.unixNano)
    (hgen : w1.randGen = w2.randGen) (es1 es2 es1' es2' : EOTSStore)
    (pk1 ch1 pk2 ch2 : Bytes) (sh1 sh2 num : Nat) (hnum : num < 2 ^ 32) (l1 l2 : List Nat)
    (h1 : CreateRandomnessPairList w1 es1 pk1 ch1 sh1 num = (.ok l1, es1'))
    (h2 : CreateRandomnessPairList w2 es2 pk2 ch2 sh2 num = (.ok l2, es2')) :
    l1 = l2 ∧ ∀ k, k < num →
      es1'.pairAt pk1 ch1 (addUint64 sh1 k) = es2'.pairAt pk2 ch2 (addUint64 sh2 k) := by
  unfold CreateRandomnessPairList at h1 h2
  have hpow : (2 : Nat) ^ 32 ≤ 2 ^ 64 := by norm_num
  refine ⟨createLoop_list_of_seed w1 w2 hclock hgen pk1 ch1 pk2 ch2 sh1 sh2 num 0 es1 es2
    es1' es2' [] l1 l2 h1 h2, ?_⟩
  intro k hk
  obtain ⟨sr1, pr1, ha, hb⟩ :=
    createLoop_ok_pair w1 pk1 ch1 sh1 num 0 es1 es1' [] l1 (by omega) h1 k hk
  obtain ⟨sr2, pr2, hc, hd⟩ :=
    createLoop_ok_pair w2 pk2 ch2 sh2 num 0 es2 es2' [] l2 (by omega) h2 k hk
  rw [← hclock, ← hgen, ha] at hc
  simp only [Except.ok.injEq, Prod.mk.injEq] at hc
  rw [Nat.zero_add] at hb hd
  unfold EOTSStore.pairAt
  rw [hb, hd, hc.1, hc.2]

/-- C12, on the code: two calls that read the clock value 1700000000000000000,
for different validators, chains, start heights and stores, return the same
three public nonces and store the same three pairs, and a call one nanosecond
later returns other nonces. -/
theorem nonces_follow_the_clock :
    (CreateRandomnessPairList (clockWorld 1700000000000000000) emptyStore [2] [66] 100 3).1
        = .ok [628022, 628023, 628024] ∧
      (CreateRandomnessPairList (clockWorld 1700000000000000000) oneStore [3] [77] 500 3).1
        = .ok [628022, 628023, 628024] ∧
      (∀ k, k < 3 →
        (CreateRandomnessPairList (clockWorld 1700000000000000000) emptyStore [2] [66] 100
            3).2.pairAt [2] [66] (addUint64 100 k)
          = (CreateRandomnessPairList (clockWorld 1700000000000000000) oneStore [3] [77] 500
            3).2.pairAt [3] [77] (addUint64 500 k)) ∧
      (CreateRandomnessPairList (clockWorld 1700000000000000001) emptyStore [2] [66] 100 3).1
        = .ok [628033, 628034, 628035] :=
  ⟨rfl, rfl,
    (batch_of_clock (clockWorld 1700000000000000000) (clockWorld 1700000000000000000) rfl rfl
      emptyStore oneStore _ _ [2] [66] [3] [77] 100 500 3 (by norm_num) [628022, 628023, 628024]
      [628022, 628023, 628024] rfl rfl).2,
    rfl⟩

/-! ## The heights of a batch -/

theorem createLoopTraced_fst (w : World) (valPk chainID : Bytes) (startHeight : Nat)
    (fuel i : Nat) (es : EOTSStore) (prList : List Nat) :
    (createLoopTraced w valPk chainID startHeight fuel i es prList).1
      = createLoop w valPk chainID startHeight fuel i es prList := by
  induction fuel generalizing i es prList with
  | zero => rfl
  | succ n ih =>
    simp only [createLoopTraced, createLoop]
    cases hr : w.randGen w.unixNano i with
    | error e => rfl
    | ok pr =>
      obtain ⟨eotsSR, eotsPR⟩ := pr
      simp only [NewSchnorrRandPair, beBytes_length, SchnorrRandomnessLength, ne_eq,
        not_true_eq_false, if_false, saveRandPair]
      cases hp : w.putFault (getRandPairKey valPk chainID (addUint64 startHeight i)) with
      | some e => rfl
      | none =>
        simp only
        exact ih (i + 1) _ _

theorem existenceCheckTraced_fst (w : World) (es : EOTSStore) (valPk chainID : Bytes)
    (startHeight : Nat) (fuel i : Nat) :
    (existenceCheckTraced w es valPk chainID startHeight fuel i).1
      = existenceCheck w es valPk chainID startHeight fuel i := by
  induction fuel generalizing i with
  | zero => rfl
  | succ n ih =>
    simp only [existenceCheckTraced, existenceCheck]
    cases hq : randPairExists w es valPk chainID (addUint64 startHeight i) with
    | error e => rfl
    | ok b =>
      cases b with
      | true => rfl
      | false =>
        simp only
        exact ih (i + 1)

/-- The heights written by the loop are the first heights of its range, and all
of them when the loop succeeds. -/
theorem createLoopTraced_heights (w : World) (valPk chainID : Bytes) (startHeight : Nat)
    (fuel i : Nat) (es : EOTSStore) (prList : List Nat) :
    (createLoopTraced w valPk chainID startHeight fuel i es prList).2
        <+: (List.range' i fuel).map (addUint64 startHeight) ∧
      (∀ l es', createLoop w valPk chainID startHeight fuel i es prList = (.ok l, es') →
        (createLoopTraced w valPk chainID startHeight fuel i es prList).2
          = (List.range' i fuel).map (addUint64 startHeight)) := by
  induction fuel generalizing i es prList with
  | zero => simp [createLoopTraced]
  | succ n ih =>
    simp only [createLoopTraced, createLoop, List.range'_succ, List.map_cons]
    cases hr : w.randGen w.unixNano i with
    | error e => simp
    | ok pr =>
      obtain ⟨eotsSR, eotsPR⟩ := pr
      simp only [NewSchnorrRandPair, beBytes_length, SchnorrRandomnessLength, ne_eq,
        not_true_eq_false, if_false, saveRandPair]
      cases hp : w.putFault (getRandPairKey valPk chainID (addUint64 startHeight i)) with
      | some e => simp
      | none =>
        simp only [List.cons_prefix_cons, true_and, List.cons.injEq]
        exact ih (i + 1) _ _

/-- The heights inspected by the existence loop are the first heights of its
range, and all of them when the loop runs to its end. -/
theorem existenceCheckTraced_heights (w : World) (es : EOTSStore) (valPk chainID : Bytes)
    (startHeight : Nat) (fuel i : Nat) :
    (existenceCheckTraced w es valPk chainID startHeight fuel i).2
        <+: (List.range' i fuel).map (addUint64 startHeight) ∧
      (existenceCheck w es valPk chainID startHeight fuel i = none →
        (existenceCheckTraced w es valPk chainID startHeight fuel i).2
          = (List.range' i fuel).map (addUint64 startHeight)) := by
  induction fuel generalizing i with
  | zero => simp [existenceCheckTraced]
  | succ n ih =>
    simp only [existenceCheckTraced, existenceCheck, List.range'_succ, List.map_cons]
    cases hq : randPairExists w es valPk chainID (addUint64 startHeight i) with
    | error e => simp
    | ok b =>
      cases b with
      | true => simp
      | false =>
        simp only [List.cons_prefix_cons, true_and, List.cons.injEq]
        exact ih (i + 1)

theorem batchHeights_nodup (startHeight num : Nat) (hnum : num ≤ 2 ^ 64) :
    (batchHeights startHeight num).Nodup := by
  unfold batchHeights
  apply List.Nodup.map_on _ (List.nodup_range num)
  intro a ha b hb hab
  by_contra hne
  rw [List.mem_range] at ha hb
  exact height_ne_of_index_ne startHeight a b (by omega) (by omega) hne hab

theorem batchHeights_no_wrap (startHeight num : Nat) (h : startHeight + num ≤ 2 ^ 64) :
    batchHeights startHeight num = (List.range num).map (fun i => startHeight + i) ∧
      (batchHeights startHeight num).Pairwise (fun a b => a < b) := by
  have heq : batchHeights startHeight num = (List.range num).map (fun i => startHeight + i) := by
    unfold batchHeights
    apply List.map_congr_left
    intro a ha
    rw [List.mem_range] at ha
    unfold addUint64
    exact Nat.mod_eq_of_lt (by omega)
  refine ⟨heq, ?_⟩
  rw [heq, List.pairwise_map]
  exact (List.pairwise_lt_range num).imp (fun hab => by omega)

/-- C13, counterexample: a batch of two from the largest `uint64` start height
succeeds and writes height `2 ^ 64 - 1` and then height 0, a sequence that is
not ascending and is not `startHeight, startHeight + 1`. -/
theorem heights_wrap_counterexample :
    (CreateRandomnessPairList calmWorld emptyStore [2] [66] 18446744073709551615 2).1
        = .ok [2000, 2001] ∧
      (createLoopTraced calmWorld [2] [66] 18446744073709551615 2 0 emptyStore []).2
        = [18446744073709551615, 0] ∧
      ¬ ((createLoopTraced calmWorld [2] [66] 18446744073709551615 2 0 emptyStore []).2).Pairwise
        (fun a b => a < b) ∧
      (createLoopTraced calmWorld [2] [66] 18446744073709551615 2 0 emptyStore []).2
        ≠ [18446744073709551615, 18446744073709551615 + 1] := by
  refine ⟨rfl, rfl, ?_, ?_⟩
  · have h : (createLoopTraced calmWorld [2] [66] 18446744073709551615 2 0 emptyStore []).2
        = [18446744073709551615, 0] := rfl
    rw [h]
    decide
  · have h : (createLoopTraced calmWorld [2] [66] 18446744073709551615 2 0 emptyStore []).2
        = [18446744073709551615, 0] := rfl
    rw [h]
    decide

/-- C13, amended: the heights at which `CreateRandomnessPairList` writes pairs
are, in write order, the first heights of `startHeight + i mod 2 ^ 64`,
`i = 0, 1, …`, and all `num` of them when the call succeeds; the existence loop
inspects the first heights of the same sequence, and all of them when it finds
none stored; the `num` heights are pairwise different; and when
`startHeight + num ≤ 2 ^ 64` they are exactly
`startHeight, …, startHeight + num - 1`, strictly ascending. -/
theorem batch_heights_in_order (w : World) (es : EOTSStore) (valPk chainID : Bytes)
    (startHeight num : Nat) (hnum : num < 2 ^ 32) :
    (createLoopTraced w valPk chainID startHeight num 0 es []).1
        = CreateRandomnessPairList w es valPk chainID startHeight num ∧
      (createLoopTraced w valPk chainID startHeight num 0 es []).2
        <+: batchHeights startHeight num ∧
      (existenceCheckTraced w es valPk chainID startHeight num 0).2
        <+: batchHeights startHeight num ∧
      (∀ l es', CreateRandomnessPairList w es valPk chainID startHeight num = (.ok l, es') →
        (createLoopTraced w valPk chainID startHeight num 0 es []).2
          = batchHeights startHeight num) ∧
      (existenceCheck w es valPk chainID startHeight num 0 = none →
        (existenceCheckTraced w es valPk chainID startHeight num 0).2
          = batchHeights startHeight num) ∧
      (batchHeights startHeight num).Nodup ∧
      (startHeight + num ≤ 2 ^ 64 →
        batchHeights startHeight num = (List.range num).map (fun i => startHeight + i) ∧
        (batchHeights startHeight num).Pairwise (fun a b => a < b)) := by
  have hpow : (2 : Nat) ^ 32 ≤ 2 ^ 64 := by norm_num
  have hw := createLoopTraced_heights w valPk chainID startHeight num 0 es []
  have hi := existenceCheckTraced_heights w es valPk chainID startHeight num 0
  rw [← List.range_eq_range'] at hw hi
  exact ⟨createLoopTraced_fst w valPk chainID startHeight num 0 es [], hw.1, hi.1, hw.2, hi.2,
    batchHeights_nodup startHeight num (by omega), batchHeights_no_wrap startHeight num⟩

/-- Witness of C13 as amended: a batch of three from height 100 on an empty
store inspects and writes the heights 100, 101, 102. -/
theorem batch_heights_in_order_witness :
    (createLoopTraced calmWorld [2] [66] 100 3 0 emptyStore []).2 = [100, 101, 102] ∧
      (existenceCheckTraced calmWorld emptyStore [2] [66] 100 3 0).2 = [100, 101, 102] ∧
      batchHeights 100 3 = [100, 101, 102] ∧
      (batchHeights 100 3).Pairwise (fun a b => a < b) :=
  have h := batch_heights_in_order calmWorld emptyStore [2] [66] 100 3 (by norm_num)
  ⟨(h.2.2.2.1 _ _ rfl).trans rfl, (h.2.2.2.2.1 rfl).trans rfl,
    (h.2.2.2.2.2.2 (by norm_num)).1.trans rfl, (h.2.2.2.2.2.2 (by norm_num)).2⟩

/-! ## Validator creation: failures -/

/-- What a failed `CreateValidator` has done: either it failed before the keyring
created the account and the manager is as it was, or the account was created
under `name`, a later step failed, and the index is as it was. -/
theorem CreateValidator_error (w : World) (lm lm' : LocalEOTSManager)
    (name passPhrase : String) (e : Err)
    (h : CreateValidator w lm name passPhrase = (.error e, lm')) :
    (lm' = lm ∧
        ((e = .ErrValidatorAlreadyExisted ∧ keyExists lm name = true) ∨
          (keyExists lm name = false ∧
            (w.algoFault = some e ∨ w.NewEntropy = .error e ∨
              (∃ entropySeed, w.NewEntropy = .ok entropySeed ∧
                (w.NewMnemonic entropySeed = .error e ∨
                  ∃ mnemonic, w.NewMnemonic entropySeed = .ok mnemonic ∧
                    w.newAccount name mnemonic passPhrase = .error e)))))) ∨
      (keyExists lm name = false ∧ ∃ mnemonic record,
        w.newAccount name mnemonic passPhrase = .ok record ∧
        lm'.kr = kvPut name record lm.kr ∧ lm'.es = lm.es ∧
        (record.GetPubKey = .error e ∨
          (∃ t, record.GetPubKey = .ok (.other t) ∧
            e = .errorf "unsupported key type in keyring") ∨
          (∃ key, record.GetPubKey = .ok (.secp256k1 key) ∧
            (w.ParsePubKey key = .error e ∨
              ∃ point, w.ParsePubKey key = .ok point ∧
                w.namePutFault (beBytes 32 point.1) = some e)))) := by
  unfold CreateValidator at h
  cases hex : keyExists lm name with
  | true =>
    simp only [hex, if_true, Prod.mk.injEq, Except.error.injEq] at h
    exact Or.inl ⟨h.2.symm, Or.inl ⟨h.1.symm, rfl⟩⟩
  | false =>
    simp only [hex, Bool.false_eq_true, if_false] at h
    cases ha : w.algoFault with
    | some e0 =>
      simp only [ha, Prod.mk.injEq, Except.error.injEq] at h
      exact Or.inl ⟨h.2.symm, Or.inr ⟨rfl, Or.inl (by rw [h.1])⟩⟩
    | none =>
      simp only [ha] at h
      cases hen : w.NewEntropy with
      | error e0 =>
        simp only [hen, Prod.mk.injEq, Except.error.injEq] at h
        exact Or.inl ⟨h.2.symm, Or.inr ⟨rfl, Or.inr (Or.inl (by rw [h.1]))⟩⟩
      | ok entropySeed =>
        simp only [hen] at h
        cases hm : w.NewMnemonic entropySeed with
        | error e0 =>
          simp only [hm, Prod.mk.injEq, Except.error.injEq] at h
          exact Or.inl ⟨h.2.symm, Or.inr ⟨rfl, Or.inr (Or.inr
            ⟨entropySeed, rfl, Or.inl (by rw [hm, h.1])⟩)⟩⟩
        | ok mnemonic =>
          simp only [hm, Keyring.NewAccount] at h
          cases hn : w.newAccount name mnemonic passPhrase with
          | error e0 =>
            simp only [hn, Prod.mk.injEq, Except.error.injEq] at h
            exact Or.inl ⟨h.2.symm, Or.inr ⟨rfl, Or.inr (Or.inr
              ⟨entropySeed, rfl, Or.inr ⟨mnemonic, hm, by rw [hn, h.1]⟩⟩)⟩⟩
          | ok record =>
            simp only [hn] at h
            refine Or.inr ⟨rfl, mnemonic, record, hn, ?_⟩
            cases hp : record.GetPubKey with
            | error e0 =>
              simp only [hp, Prod.mk.injEq, Except.error.injEq] at h
              obtain ⟨h1, h2⟩ := h
              subst h1
              subst h2
              exact ⟨rfl, rfl, Or.inl rfl⟩
            | ok pub =>
              cases pub with
              | other t =>
                simp only [hp, Prod.mk.injEq, Except.error.injEq] at h
                obtain ⟨h1, h2⟩ := h
                subst h1
                subst h2
                exact ⟨rfl, rfl, Or.inr (Or.inl ⟨t, rfl, rfl⟩)⟩
              | secp256k1 key =>
                simp only [hp] at h
                cases hpp : w.ParsePubKey key with
                | error e0 =>
                  simp only [hpp, Prod.mk.injEq, Except.error.injEq] at h
                  obtain ⟨h1, h2⟩ := h
                  subst h1
                  subst h2
                  exact ⟨rfl, rfl, Or.inr (Or.inr ⟨key, rfl, Or.inl hpp⟩)⟩
                | ok point =>
                  simp only [hpp, saveValidatorKey] at h
                  cases hs : w.namePutFault (beBytes 32 point.1) with
                  | none => simp [hs] at h
                  | some e0 =>
                    simp only [hs, Prod.mk.injEq, Except.error.injEq] at h
                    obtain ⟨h1, h2⟩ := h
                    subst h1
                    subst h2
                    exact ⟨rfl, rfl, Or.inr (Or.inr ⟨key, rfl, Or.inr ⟨point, hpp, hs⟩⟩)⟩

/-- C14, counterexample: when the write of the index fails, `CreateValidator
"alice"` returns the write error, yet the keyring now holds a key under "alice"
that it did not hold before and the index has no entry for it, and a retry with
the same name fails with `ErrValidatorAlreadyExisted`. -/
theorem create_not_atomic_counterexample :
    (CreateValidator indexWriteFails freshManager "alice" "pw").1
        = .error (.fault "disk full") ∧
      (kvGet "alice" freshManager.kr).isSome = false ∧
      (kvGet "alice" (CreateValidator indexWriteFails freshManager "alice" "pw").2.kr).isSome
        = true ∧
      (CreateValidator indexWriteFails freshManager "alice" "pw").2.es.keys = [] ∧
      (CreateValidator calmWorld (CreateValidator indexWriteFails freshManager "alice" "pw").2
        "alice" "pw").1 = .error .ErrValidatorAlreadyExisted :=
  ⟨rfl, rfl, rfl, rfl, rfl⟩

/-- C14, amended: a `CreateValidator` that fails before the keyring has created
the account (the name exists, or the algorithm, the entropy, the mnemonic or
`NewAccount` fails) leaves the keyring and the index as they were; one that
fails after `NewAccount` succeeded (`GetPubKey`, the key type, `ParsePubKey` or
the write of the index fails) leaves the new record in the keyring under
`name` and the stores as they were, and a retry with the same name then
fails with `ErrValidatorAlreadyExisted`. -/
theorem failed_create_effect (w w2 : World) (lm lm' : LocalEOTSManager)
    (name passPhrase passPhrase2 : String) (e : Err)
    (hfail : CreateValidator w lm name passPhrase = (.error e, lm')) :
    (lm' = lm ∧
        ((e = .ErrValidatorAlreadyExisted ∧ keyExists lm name = true) ∨
          (keyExists lm name = false ∧
            (w.algoFault = some e ∨ w.NewEntropy = .error e ∨
              (∃ entropySeed, w.NewEntropy = .ok entropySeed ∧
                (w.NewMnemonic entropySeed = .error e ∨
                  ∃ mnemonic, w.NewMnemonic entropySeed = .ok mnemonic ∧
                    w.newAccount name mnemonic passPhrase = .error e)))))) ∨
      (keyExists lm name = false ∧
        (∃ mnemonic record,
          w.newAccount name mnemonic passPhrase = .ok record ∧
          lm'.kr = kvPut name record lm.kr ∧ lm'.es = lm.es ∧
          (record.GetPubKey = .error e ∨
            (∃ t, record.GetPubKey = .ok (.other t) ∧
              e = .errorf "unsupported key type in keyring") ∨
            (∃ key, record.GetPubKey = .ok (.secp256k1 key) ∧
              (w.ParsePubKey key = .error e ∨
                ∃ point, w.ParsePubKey key = .ok point ∧
                  w.namePutFault (beBytes 32 point.1) = some e)))) ∧
        keyExists lm' name = true ∧
        CreateValidator w2 lm' name passPhrase2 = (.error .ErrValidatorAlreadyExisted, lm')) := by
  rcases CreateValidator_error w lm lm' name passPhrase e hfail with h | ⟨h0, mnemonic, record, h⟩
  · exact Or.inl h
  · have hex : keyExists lm' name = true := by
      simp [keyExists, Keyring.Key, h.2.1, kvGet_kvPut_self]
    refine Or.inr ⟨h0, ⟨mnemonic, record, h⟩, hex, ?_⟩
    simp [CreateValidator, hex]

/-- Witness of C14 as amended: the failed write of the index for "alice". -/
theorem failed_create_effect_witness :
    keyExists freshManager "alice" = false ∧
      keyExists (CreateValidator indexWriteFails freshManager "alice" "pw").2 "alice" = true ∧
      CreateValidator calmWorld (CreateValidator indexWriteFails freshManager "alice" "pw").2
          "alice" "pw2"
        = (.error .ErrValidatorAlreadyExisted,
            (CreateValidator indexWriteFails freshManager "alice" "pw").2) := by
  rcases failed_create_effect indexWriteFails calmWorld freshManager
    (CreateValidator indexWriteFails freshManager "alice" "pw").2 "alice" "pw" "pw2"
    (.fault "disk full") rfl with h | h
  · exact absurd (congrArg (fun m => (kvGet "alice" m.kr).isSome) h.1) (by decide)
  · exact ⟨h.1, h.2.2.1, h.2.2.2⟩

end EOTS
